import Mathlib

/-!
# Mistral workflow v2 bindings: executions, workflows, cron triggers

A shallow embedding of the `openstack/workflow/v2` packages.  The resource
packages (`executions`, `workflows`, `crontriggers`) are translated from their
sources.  The generic machinery they call into (`Result.ExtractInto`,
`BuildRequestBody`, `BuildQueryString`, `ServiceClient`, `pagination.Pager`)
lives in the core packages, which are not among the sources at hand; that part
is modelled from the specification and marked as such.
-/

namespace Gophercloud

/-! ## JSON values and errors -/

/-- A decoded JSON document (`interface{}` after `encoding/json`). -/
inductive JSON where
  | null : JSON
  | bool : Bool → JSON
  | num : Int → JSON
  | str : String → JSON
  | arr : List JSON → JSON
  | obj : List (String × JSON) → JSON

/-- The error taxonomy of the specification (section 7). -/
inductive Error where
  /-- A required option was left at its zero value (`ValidationError`). -/
  | missingInput (argument : String) : Error
  /-- The transport failed or answered with an unexpected status (`RequestError`). -/
  | request (status : Nat) : Error
  /-- A response body did not have the expected shape (`DecodeError`). -/
  | decode (field : String) : Error
  /-- An error made up by a caller, e.g. by a page visitor or a poll check. -/
  | custom (msg : String) : Error
  deriving DecidableEq, Repr

/-! ## Result decoder (core, modelled) -/

/-- Folding of one character of a member key, as `encoding/json` does when it
looks for the field of a key: an ASCII capital becomes the small letter, the
Kelvin sign becomes `k`, the long s becomes `s`, anything else stays. -/
def foldChar (c : Char) : Char :=
  if 65 ≤ c.toNat ∧ c.toNat ≤ 90 then Char.ofNat (c.toNat + 32)
  else if c.toNat = 0x212A then 'k'
  else if c.toNat = 0x17F then 's'
  else c

/-- Modelled from the spec: the matching of a member key to a `json` tag inside
`Result.ExtractInto`, which leaves it to `encoding/json`: a key belongs to the
field whose tag it equals, letter case ignored.  All tags of the sources are
small ASCII letters and `_`, so a key matches the tag `t` exactly when its
folding is `t`. -/
def foldKey (k : String) : String :=
  String.mk (k.toList.map foldChar)

/-- Modelled from the spec: the struct decoding inside `Result.ExtractInto`
(section 4.2, "turns a raw HTTP response body into a typed entity").  The value
a string field tagged `key` ends up with after the members of a JSON object are
assigned in document order: a string member sets it, a `null` member leaves it
alone, members whose key does not match are ignored ("Unknown JSON fields are
ignored"). -/
def scanString (key : String) : List (String × JSON) → String → String
  | [], cur => cur
  | (k, v) :: rest, cur =>
    if foldKey k = key then
      match v with
      | .str s => scanString key rest s
      | _ => scanString key rest cur
    else scanString key rest cur

/-- Modelled from the spec: the first member, in document order, whose key
matches one of the string-typed `tags` and whose value is neither a string nor
`null` ("Decode failures (malformed JSON, type mismatch) fail with a
DecodeError"). -/
def firstStringMismatch (tags : List String) : List (String × JSON) → Option Error
  | [] => none
  | (k, v) :: rest =>
    if foldKey k ∈ tags then
      match v with
      | .str _ => firstStringMismatch tags rest
      | .null => firstStringMismatch tags rest
      | _ => some (Error.decode k)
    else firstStringMismatch tags rest

/-- Modelled from the spec: what `ExtractInto` makes of the top-level value
when the target is a struct.  A JSON object offers its members, `null` offers
none and is no error, any other value is a type mismatch. -/
def structMembers : JSON → List (String × JSON) × Option Error
  | .obj fields => (fields, none)
  | .null => ([], none)
  | _ => ([], some (Error.decode ""))

/-- The first of two optional errors. -/
def firstError : Option Error → Option Error → Option Error
  | some e, _ => some e
  | none, e => e

/-- Modelled from the spec: `gophercloud.Result`, the raw outcome of a request:
the decoded response body and the error of the request, if any. -/
structure Result where
  Body : JSON
  Err : Option Error

/-! ## executions/results.go -/

namespace executions

/-- Execution represents a workflow execution on OpenStack mistral API. -/
structure Execution where
  ID : String
  Description : String
  Input : String
  Output : String
  Params : String
  ProjectID : String
  State : String
  WorkflowID : String
  WorkflowName : String
  WorkflowNamespace : String
  deriving DecidableEq, Repr

/-- The `json` tags of `Execution`, in declaration order. -/
def executionTags : List String :=
  ["id", "description", "input", "output", "params", "project_id", "state",
   "workflow_id", "workflow_name", "workflow_namespace"]

/-- Decoding of one JSON value into an `Execution{}` that starts out zeroed:
each field is read from the member carrying its `json` tag. -/
def unmarshalExecution (v : JSON) : Execution × Option Error :=
  let (fields, topErr) := structMembers v
  ({ ID := scanString "id" fields ""
     Description := scanString "description" fields ""
     Input := scanString "input" fields ""
     Output := scanString "output" fields ""
     Params := scanString "params" fields ""
     ProjectID := scanString "project_id" fields ""
     State := scanString "state" fields ""
     WorkflowID := scanString "workflow_id" fields ""
     WorkflowName := scanString "workflow_name" fields ""
     WorkflowNamespace := scanString "workflow_namespace" fields "" },
   firstError topErr (firstStringMismatch executionTags fields))

/-- The zero value `Execution{}`. -/
def emptyExecution : Execution :=
  { ID := "", Description := "", Input := "", Output := "", Params := "",
    ProjectID := "", State := "", WorkflowID := "", WorkflowName := "",
    WorkflowNamespace := "" }

/-- Source `commonResult.Extract`: `e := Execution{}; err := r.ExtractInto(&e);
return &e, err`.  `ExtractInto` hands back the request error without touching
`e` when there is one, and otherwise decodes the whole body into `e`. -/
def commonResult.Extract (r : Result) : Execution × Option Error :=
  match r.Err with
  | some e => (emptyExecution, some e)
  | none => unmarshalExecution r.Body

/-- The JSON object of an execution record, one member per `json` tag. -/
def executionJSON (e : Execution) : JSON :=
  .obj [("id", .str e.ID), ("description", .str e.Description),
        ("input", .str e.Input), ("output", .str e.Output),
        ("params", .str e.Params), ("project_id", .str e.ProjectID),
        ("state", .str e.State), ("workflow_id", .str e.WorkflowID),
        ("workflow_name", .str e.WorkflowName),
        ("workflow_namespace", .str e.WorkflowNamespace)]

/-- The response body of `TestGetExecution`: the record under `"execution"`. -/
def testGetBody : JSON :=
  .obj [("execution", .obj
    [("created_at", .str "1970-01-01T00:00:00.000000"),
     ("description", .str "this is a description"),
     ("id", .str "1"), ("input", .str "{}"), ("output", .str "{}"),
     ("params", .str "{}"), ("project_id", .str "p1"),
     ("state", .str "SUCCESS"),
     ("updated_at", .str "1970-01-01T00:00:00.000000"),
     ("workflow_id", .str "w1"), ("workflow_name", .str "flow"),
     ("workflow_namespace", .str "some_namespace")])]

/-- The `expected` value of `TestGetExecution`. -/
def testExpected : Execution :=
  { ID := "1", Description := "this is a description", Input := "{}",
    Output := "{}", Params := "{}", ProjectID := "p1", State := "SUCCESS",
    WorkflowID := "w1", WorkflowName := "flow",
    WorkflowNamespace := "some_namespace" }

/-- The members of the bare record of `TestGetExecution`. -/
def testGetMembers : List (String × JSON) :=
  [("created_at", .str "1970-01-01T00:00:00.000000"),
   ("description", .str "this is a description"),
   ("id", .str "1"), ("input", .str "{}"), ("output", .str "{}"),
   ("params", .str "{}"), ("project_id", .str "p1"),
   ("state", .str "SUCCESS"),
   ("updated_at", .str "1970-01-01T00:00:00.000000"),
   ("workflow_id", .str "w1"), ("workflow_name", .str "flow"),
   ("workflow_namespace", .str "some_namespace")]

end executions

/-! ## Option encoder and transport (core, modelled) -/

/-- A value an options field can hold: the sources use strings and ints. -/
inductive FieldValue where
  | str : String → FieldValue
  | int : Int → FieldValue
  deriving DecidableEq, Repr

/-- Whether the value equals its type's zero value ("empty string, zero
integer"). -/
def FieldValue.isZero : FieldValue → Bool
  | .str s => s = ""
  | .int n => n = 0

/-- The JSON rendering of a field value. -/
def FieldValue.toJSON : FieldValue → JSON
  | .str s => .str s
  | .int n => .num n

/-- Modelled from the spec: one row of the "explicit mapping table" of section
9 for a body field: the semantic (Go) name, the wire name of the `json` tag,
the value, and the `required:"true"` and `omitempty` marks. -/
structure BodyField where
  name : String
  tag : String
  value : FieldValue
  required : Bool
  omitempty : Bool

/-- A JSON object held as a Go `map[string]interface{}`. -/
abbrev JSONMap := List (String × JSON)

/-- The value stored under `key`, if any. -/
def JSONMap.get? (m : JSONMap) (key : String) : Option JSON :=
  match m with
  | [] => none
  | (k, v) :: rest => if k = key then some v else JSONMap.get? rest key

/-- Modelled from the spec: the validation pass of `BuildRequestBody`
("Fields marked required must be non-zero; violation fails with a
ValidationError naming the missing field"). -/
def validateRequired : List BodyField → Option Error
  | [] => none
  | f :: rest =>
    if f.required && f.value.isZero then some (Error.missingInput f.name)
    else validateRequired rest

/-- Modelled from the spec: the marshalling pass of `BuildRequestBody`
("Fields marked omit-if-empty are excluded when their value equals the type's
zero value"); every other field is written under its wire name. -/
def marshalFields : List BodyField → JSONMap
  | [] => []
  | f :: rest =>
    if f.omitempty && f.value.isZero then marshalFields rest
    else (f.tag, f.value.toJSON) :: marshalFields rest

/-- Modelled from the spec: `gophercloud.BuildRequestBody(opts, parent)`,
section 4.1 `EncodeBody(options, envelopeKey)`: validate, marshal, and wrap
the field set under the envelope key when one is given. -/
def BuildRequestBody (fields : List BodyField) (parent : String) : Except Error JSONMap :=
  match validateRequired fields with
  | some e => .error e
  | none =>
    if parent = "" then .ok (marshalFields fields)
    else .ok [(parent, .obj (marshalFields fields))]

/-- The three verbs of the transport collaborator (section 6). -/
inductive Method where
  | GET | POST | DELETE
  deriving DecidableEq, Repr

/-- One request handed to the transport. -/
structure HTTPRequest where
  method : Method
  url : String
  body : Option JSON

/-- What the transport answers: a status and a decoded body (`null` when the
response has none). -/
structure HTTPResponse where
  status : Nat
  body : JSON

/-- Modelled from the spec: the transport collaborator of section 6, "an opaque
client capable of GET/POST/DELETE": it either fails or answers. -/
abbrev Transport := HTTPRequest → Except Error HTTPResponse

/-- Modelled from the spec: `gophercloud.ServiceClient`, the transport plus its
base URL. -/
structure ServiceClient where
  Endpoint : String
  transport : Transport

/-- Modelled from the spec: `ServiceClient.ServiceURL(parts...)`, the base URL
followed by the parts joined with `/`. -/
def ServiceClient.ServiceURL (client : ServiceClient) (parts : List String) : String :=
  client.Endpoint ++ "/".intercalate parts

/-- Modelled from the spec: one call of the transport with the set of accepted
statuses of the operation (section 6); a status outside the set is a
`RequestError`.  The second component is the list of requests issued. -/
def ServiceClient.Request (client : ServiceClient) (req : HTTPRequest) (okCodes : List Nat) :
    Result × List HTTPRequest :=
  match client.transport req with
  | .error e => ({ Body := .null, Err := some e }, [req])
  | .ok resp =>
    if resp.status ∈ okCodes then ({ Body := resp.body, Err := none }, [req])
    else ({ Body := .null, Err := some (Error.request resp.status) }, [req])

/-- Modelled from the spec: `client.Get(url, &r.Body, nil)`; "Get/List → 200". -/
def ServiceClient.Get (client : ServiceClient) (url : String) : Result × List HTTPRequest :=
  client.Request { method := .GET, url := url, body := none } [200]

/-- Modelled from the spec: `client.Post(url, b, &r.Body, opts)` with the
`OkCodes` of `opts`. -/
def ServiceClient.Post (client : ServiceClient) (url : String) (b : JSON)
    (okCodes : List Nat) : Result × List HTTPRequest :=
  client.Request { method := .POST, url := url, body := some b } okCodes

/-- Modelled from the spec: `client.Delete(url, nil)`; "Delete → 202 (no
body)". -/
def ServiceClient.Delete (client : ServiceClient) (url : String) : Result × List HTTPRequest :=
  client.Request { method := .DELETE, url := url, body := none } [202]

/-! ## executions/urls.go and executions/requests.go -/

namespace executions

/-- Source `getURL`. -/
def getURL (client : ServiceClient) (id : String) : String :=
  client.ServiceURL ["executions", id]

/-- Source `listURL`. -/
def listURL (client : ServiceClient) : String :=
  client.ServiceURL ["executions"]

/-- Source `createURL`. -/
def createURL (client : ServiceClient) : String :=
  client.ServiceURL ["executions"]

/-- Source `deleteURL`. -/
def deleteURL (client : ServiceClient) (id : String) : String :=
  client.ServiceURL ["executions", id]

/-- CreateOpts specifies parameters used to create an execution. -/
structure CreateOpts where
  WorkflowID : String
  WorkflowNamespace : String
  Input : String
  Params : String
  Description : String
  deriving DecidableEq, Repr

/-- The struct tags of `CreateOpts`, row by row. -/
def CreateOpts.fields (opts : CreateOpts) : List BodyField :=
  [ { name := "WorkflowID", tag := "workflow_id", value := .str opts.WorkflowID,
      required := true, omitempty := false },
    { name := "WorkflowNamespace", tag := "workflow_namespace",
      value := .str opts.WorkflowNamespace, required := false, omitempty := true },
    { name := "Input", tag := "input", value := .str opts.Input,
      required := false, omitempty := true },
    { name := "Params", tag := "params", value := .str opts.Params,
      required := false, omitempty := true },
    { name := "Description", tag := "description", value := .str opts.Description,
      required := false, omitempty := true } ]

/-- Source `CreateOpts.ToExecutionCreateMap`:
`return gophercloud.BuildRequestBody(opts, "execution")`. -/
def CreateOpts.ToExecutionCreateMap (opts : CreateOpts) : Except Error JSONMap :=
  BuildRequestBody opts.fields "execution"

/-- Source `Create`: encode the options; on an error return it in the result,
otherwise POST the body to `createURL` accepting 200 and 201. -/
def Create (client : ServiceClient) (opts : CreateOpts) : Result × List HTTPRequest :=
  match opts.ToExecutionCreateMap with
  | .error err => ({ Body := .null, Err := some err }, [])
  | .ok b => client.Post (createURL client) (.obj b) [200, 201]

/-- Source `Get`. -/
def Get (client : ServiceClient) (id : String) : Result × List HTTPRequest :=
  client.Get (getURL client id)

/-- Source `Delete`. -/
def Delete (client : ServiceClient) (id : String) : Result × List HTTPRequest :=
  client.Delete (deleteURL client id)

/-- The options of `TestCreateExecution`. -/
def testCreateOpts : CreateOpts :=
  { WorkflowID := "w1", WorkflowNamespace := "", Input := "{}", Params := "{}",
    Description := "this is a description" }

/-- The server of `TestCreateExecution`: every request is answered with status
200 and the record under `"execution"`. -/
def testCreateClient : ServiceClient :=
  { Endpoint := "http://127.0.0.1/"
    transport := fun _ => .ok { status := 200, body := testGetBody } }

end executions

/-! ## Query strings (core, modelled) -/

/-- The text of a field value in a query string: the string itself, or the
decimal rendering of the integer. -/
def FieldValue.render : FieldValue → String
  | .str s => s
  | .int n => toString n

/-- Modelled from the spec: one row of the mapping table for a query field:
the semantic name, the wire name of the `q` tag, the value, and the
`required:"true"` mark. -/
structure QueryField where
  name : String
  tag : String
  value : FieldValue
  required : Bool

/-- Query parameters as a list of wire name and value (`url.Values`). -/
abbrev Values := List (String × String)

/-- The value stored under `key`, if any. -/
def Values.get? (vs : Values) (key : String) : Option String :=
  match vs with
  | [] => none
  | (k, v) :: rest => if k = key then some v else Values.get? rest key

/-- Modelled from the spec: the field pass of `gophercloud.BuildQueryString`,
section 4.1 `EncodeQuery(options)`: a non-zero field is added under its wire
name, a zero field is left out, unless it is required, which is an error. -/
def buildValues : List QueryField → Except Error Values
  | [] => .ok []
  | f :: rest =>
    if f.value.isZero then
      if f.required then .error (Error.missingInput f.name) else buildValues rest
    else
      match buildValues rest with
      | .error e => .error e
      | .ok vs => .ok ((f.tag, f.value.render) :: vs)

/-- The parameters of the non-zero fields, in field order: what `buildValues`
returns when no field is required. -/
def presentValues (fields : List QueryField) : Values :=
  fields.filterMap fun f => if f.value.isZero then none else some (f.tag, f.value.render)

/-- The UTF-8 bytes of a code point. -/
def utf8Bytes (n : Nat) : List Nat :=
  if n < 0x80 then [n]
  else if n < 0x800 then [0xC0 + n / 64, 0x80 + n % 64]
  else if n < 0x10000 then [0xE0 + n / 4096, 0x80 + n / 64 % 64, 0x80 + n % 64]
  else [0xF0 + n / 262144, 0x80 + n / 4096 % 64, 0x80 + n / 64 % 64, 0x80 + n % 64]

/-- An upper-case hexadecimal digit. -/
def hexDigit (d : Nat) : Char :=
  if d < 10 then Char.ofNat (48 + d) else Char.ofNat (55 + d)

/-- Percent-escaping of one character of a query component: letters, digits
and `-_.~` stay, a blank becomes `+`, every other byte becomes `%XX`. -/
def escapeChar (c : Char) : List Char :=
  if c.isAlphanum || c = '-' || c = '_' || c = '.' || c = '~' then [c]
  else if c = ' ' then ['+']
  else (utf8Bytes c.toNat).flatMap fun b => ['%', hexDigit (b / 16), hexDigit (b % 16)]

/-- Modelled from the spec: escaping of a key or value of a query string. -/
def QueryEscape (s : String) : String :=
  String.mk (s.toList.flatMap escapeChar)

/-- The value of a hexadecimal digit. -/
def unhex (c : Char) : Option Nat :=
  if 48 ≤ c.toNat ∧ c.toNat ≤ 57 then some (c.toNat - 48)
  else if 65 ≤ c.toNat ∧ c.toNat ≤ 70 then some (c.toNat - 55)
  else none

/-- Where the reading of an escaped text stands. -/
inductive Pending where
  | start : Pending
  | percent : Pending
  | high (a : Nat) : Pending

/-- The bytes that an escaped text stands for. -/
def unescapeBytes : Pending → List Char → Option (List Nat)
  | .start, [] => some []
  | .start, c :: rest =>
    if c = '%' then unescapeBytes .percent rest
    else if c = '+' then (unescapeBytes .start rest).map (32 :: ·)
    else (unescapeBytes .start rest).map (c.toNat :: ·)
  | .percent, c :: rest =>
    match unhex c with
    | some a => unescapeBytes (.high a) rest
    | none => none
  | .high a, c :: rest =>
    match unhex c with
    | some b => (unescapeBytes .start rest).map ((a * 16 + b) :: ·)
    | none => none
  | .percent, [] => none
  | .high _, [] => none

/-- The characters that a list of UTF-8 bytes stands for; `need` bytes of the
current character are still to come and `acc` is its value so far. -/
def utf8Chars : Nat → Nat → List Nat → Option (List Char)
  | 0, _, [] => some []
  | 0, _, b :: rest =>
    if b < 0x80 then (utf8Chars 0 0 rest).map (Char.ofNat b :: ·)
    else if b < 0xE0 then utf8Chars 1 (b - 0xC0) rest
    else if b < 0xF0 then utf8Chars 2 (b - 0xE0) rest
    else utf8Chars 3 (b - 0xF0) rest
  | k + 1, acc, b :: rest =>
    if k = 0 then (utf8Chars 0 0 rest).map (Char.ofNat (acc * 64 + (b - 0x80)) :: ·)
    else utf8Chars k (acc * 64 + (b - 0x80)) rest
  | _ + 1, _, [] => none

/-- The text that an escaped text stands for: the reading back of what
`QueryEscape` writes, by which a parameter carries its value. -/
def QueryUnescape (t : String) : Option String :=
  match unescapeBytes .start t.toList with
  | none => none
  | some bs => (utf8Chars 0 0 bs).map String.mk

/-- Lexicographic order on the characters of two keys, by code point. -/
def lessChars : List Char → List Char → Bool
  | _, [] => false
  | [], _ :: _ => true
  | a :: as, b :: bs =>
    if a.toNat < b.toNat then true
    else if b.toNat < a.toNat then false
    else lessChars as bs

/-- Insertion of one parameter into a list ordered by key. -/
def insertByKey (kv : String × String) : Values → Values
  | [] => [kv]
  | x :: rest =>
    if lessChars kv.1.toList x.1.toList then kv :: x :: rest else x :: insertByKey kv rest

/-- The parameters ordered by key ("deterministic within a single process
run"). -/
def sortByKey : Values → Values
  | [] => []
  | kv :: rest => insertByKey kv (sortByKey rest)

/-- Modelled from the spec: `url.Values.Encode`, the parameters ordered by key,
each written `key=value` after escaping, joined with `&`. -/
def Values.Encode (vs : Values) : String :=
  "&".intercalate ((sortByKey vs).map fun kv => QueryEscape kv.1 ++ "=" ++ QueryEscape kv.2)

/-- The text of the parameter of a field, if the field is non-zero: the wire
name and the value, both escaped, with `=` in between. -/
def paramText (f : QueryField) : Option String :=
  if f.value.isZero then none
  else some (QueryEscape f.tag ++ "=" ++ QueryEscape f.value.render)

/-- Modelled from the spec: `q.String()` on the URL that `BuildQueryString`
returns, which has a query and nothing else: `?` and the query, or nothing at
all when the query is empty. -/
def URLString (rawQuery : String) : String :=
  if rawQuery = "" then "" else "?" ++ rawQuery

/-- Modelled from the spec: `gophercloud.BuildQueryString(opts)` followed by
`q.String()`, as both `ToExecutionListQuery` and `ToCronTriggerListQuery` call
them: `q, err := BuildQueryString(opts); return q.String(), err`. -/
def BuildQueryString (fields : List QueryField) : String × Option Error :=
  match buildValues fields with
  | .error e => ("", some e)
  | .ok vs => (URLString vs.Encode, none)

/-! ## Paginator (core, modelled) -/

/-- Modelled from the spec: the two "derived facts" of a page (section 3), as
the methods `IsEmpty` and `NextPageURL` that a page type implements over the
response body it wraps. -/
structure PageKind where
  IsEmpty : JSON → Bool × Option Error
  NextPageURL : JSON → String × Option Error

/-- Modelled from the spec: `pagination.Pager`, as `NewPager(client, url,
createPage)` builds it, or `Pager{Err: err}`.  The page type that `createPage`
wraps each response in is handed to `EachPage` as a `PageKind`. -/
structure Pager where
  client : ServiceClient
  initialURL : String
  Err : Option Error

/-- Modelled from the spec: a page visitor `func(Page) (bool, error)`.  It is a
closure, so it carries a state of its own (the `pages++` of the tests). -/
abbrev Handler (σ : Type) := σ → JSON → σ × Bool × Option Error

/-- What an iteration has done so far: the URLs requested, the page bodies
handed to the visitor (both oldest first), and the visitor's state. -/
structure Iteration (σ : Type) where
  requests : List String
  visited : List JSON
  hstate : σ

/-- Modelled from the spec: the loop of `Pager.EachPage` (section 4.3): GET the
current URL, stop without error on an empty page, hand the page to the
visitor, stop when it reports an error or asks to stop, read the next link,
stop when there is none, otherwise go on with the next URL.  Any error on the
way ends the loop with that error.  `fuel` bounds the number of pages. -/
def eachPageLoop {σ : Type} (kind : PageKind) (client : ServiceClient) (handler : Handler σ) :
    Nat → String → Iteration σ → Option (Option Error × Iteration σ)
  | 0, _, _ => none
  | fuel + 1, url, it =>
    let it1 : Iteration σ := { it with requests := it.requests ++ [url] }
    match (client.Get url).1 with
    | { Body := _, Err := some e } => some (some e, it1)
    | { Body := body, Err := none } =>
      match kind.IsEmpty body with
      | (_, some e) => some (some e, it1)
      | (true, none) => some (none, it1)
      | (false, none) =>
        match handler it1.hstate body with
        | (s, ok, herr) =>
          let it2 : Iteration σ := { it1 with visited := it1.visited ++ [body], hstate := s }
          match herr with
          | some e => some (some e, it2)
          | none =>
            if ok = false then some (none, it2)
            else
              match kind.NextPageURL body with
              | (_, some e) => some (some e, it2)
              | (next, none) =>
                if next = "" then some (none, it2)
                else eachPageLoop kind client handler fuel next it2

/-- Modelled from the spec: `Pager.EachPage(handler)`: a pager that carries an
error returns it at once, otherwise the loop starts at the initial URL. -/
def Pager.EachPage {σ : Type} (kind : PageKind) (p : Pager) (handler : Handler σ) (s : σ)
    (fuel : Nat) : Option (Option Error × Iteration σ) :=
  match p.Err with
  | some e => some (some e, { requests := [], visited := [], hstate := s })
  | none =>
    eachPageLoop kind p.client handler fuel p.initialURL
      { requests := [], visited := [], hstate := s }

/-- Modelled from the spec: decoding of the elements of a JSON array into a
slice, one by one; the error is the first one met. -/
def decodeArray {α : Type} (decode : JSON → α × Option Error) : List JSON → List α × Option Error
  | [] => ([], none)
  | x :: rest =>
    ((decode x).1 :: (decodeArray decode rest).1,
     firstError (decode x).2 (decodeArray decode rest).2)

/-- Modelled from the spec: the slice a field tagged `key` ends up with after
the members of a JSON object are assigned in document order ("decoded list of
entities", `DecodeList(rawBody, envelopeKey)`): an array member sets it, a
`null` member leaves it alone, a member of another type is a mismatch, members
whose key does not match are ignored. -/
def scanArray {α : Type} (key : String) (decode : JSON → α × Option Error) :
    List (String × JSON) → List α × Option Error → List α × Option Error
  | [], acc => acc
  | (k, v) :: rest, acc =>
    if foldKey k = key then
      match v with
      | .arr xs =>
        scanArray key decode rest
          ((decodeArray decode xs).1, firstError acc.2 (decodeArray decode xs).2)
      | .null => scanArray key decode rest acc
      | _ => scanArray key decode rest (acc.1, firstError acc.2 (some (Error.decode k)))
    else scanArray key decode rest acc

/-! ## executions: listing -/

namespace executions

/-- ListOpts filters the result returned by the List() function. -/
structure ListOpts where
  WorkflowName : String
  WorkflowID : String
  Description : String
  State : String
  SortDir : String
  SortKey : String
  Marker : String
  Limit : Int
  deriving DecidableEq, Repr

/-- The `q` tags of `ListOpts`, row by row; none is required. -/
def ListOpts.fields (opts : ListOpts) : List QueryField :=
  [ { name := "WorkflowName", tag := "workflow_name", value := .str opts.WorkflowName,
      required := false },
    { name := "WorkflowID", tag := "workflow_id", value := .str opts.WorkflowID,
      required := false },
    { name := "Description", tag := "description", value := .str opts.Description,
      required := false },
    { name := "State", tag := "state", value := .str opts.State, required := false },
    { name := "SortDir", tag := "sort_dir", value := .str opts.SortDir, required := false },
    { name := "SortKey", tag := "sort_key", value := .str opts.SortKey, required := false },
    { name := "Marker", tag := "marker", value := .str opts.Marker, required := false },
    { name := "Limit", tag := "limit", value := .int opts.Limit, required := false } ]

/-- Source `ListOpts.ToExecutionListQuery`. -/
def ListOpts.ToExecutionListQuery (opts : ListOpts) : String × Option Error :=
  BuildQueryString opts.fields

/-- Source `ExtractExecutions`: decode the page body into
`struct { Executions []Execution "json:executions" }` and return the slice
together with the error. -/
def ExtractExecutions (body : JSON) : List Execution × Option Error :=
  ((scanArray "executions" unmarshalExecution (structMembers body).1 ([], none)).1,
   firstError (structMembers body).2
     (scanArray "executions" unmarshalExecution (structMembers body).1 ([], none)).2)

/-- Source `ExecutionPage.IsEmpty`: `exec, err := ExtractExecutions(e);
return len(exec) == 0, err`. -/
def IsEmpty (body : JSON) : Bool × Option Error :=
  ((ExtractExecutions body).1.length == 0, (ExtractExecutions body).2)

/-- Source `ExecutionPage.NextPageURL`: decode the page body into
`struct { Next string "json:next" }`; an error gives the empty URL and the
error, otherwise the link. -/
def NextPageURL (body : JSON) : String × Option Error :=
  match firstError (structMembers body).2 (firstStringMismatch ["next"] (structMembers body).1) with
  | some err => ("", some err)
  | none => (scanString "next" (structMembers body).1 "", none)

/-- The page type `ExecutionPage` that `List` wraps each response in. -/
def ExecutionPage : PageKind :=
  { IsEmpty := IsEmpty, NextPageURL := NextPageURL }

/-- A list page as the server writes it: the executions under `"executions"`
and, when `next` is not empty, the link under `"next"`. -/
def pageJSON (es : List Execution) (next : String) : JSON :=
  .obj (("executions", .arr (es.map executionJSON)) ::
    (if next = "" then [] else [("next", .str next)]))

/-- Source `List`: the list URL, followed by the query of the options when
options are given; an encoding error gives `Pager{Err: err}` (whose client is
never consulted). -/
def List (client : ServiceClient) (opts : Option ListOpts) : Pager :=
  match opts with
  | none => { client := client, initialURL := listURL client, Err := none }
  | some o =>
    match o.ToExecutionListQuery with
    | (_, some err) => { client := client, initialURL := "", Err := some err }
    | (query, none) => { client := client, initialURL := listURL client ++ query, Err := none }

/-- Iteration over the pager of `List`: `List(client, opts).EachPage(handler)`. -/
def EachPage {σ : Type} (client : ServiceClient) (opts : Option ListOpts)
    (handler : Handler σ) (s : σ) (fuel : Nat) : Option (Option Error × Iteration σ) :=
  (List client opts).EachPage ExecutionPage handler s fuel

end executions

/-! ## crontriggers/requests.go: listing -/

namespace crontriggers

/-- Modelled from the spec: `listURL` of `crontriggers/urls.go`, which is not
among the sources; the tests serve the collection under `/cron_triggers`. -/
def listURL (client : ServiceClient) : String :=
  client.ServiceURL ["cron_triggers"]

/-- ListOpts filters the result returned by the List() function. -/
structure ListOpts where
  WorkflowName : String
  WorkflowID : String
  Name : String
  Scope : String
  SortDir : String
  SortKey : String
  Marker : String
  Limit : Int
  deriving DecidableEq, Repr

/-- The `q` tags of `ListOpts`, row by row; none is required. -/
def ListOpts.fields (opts : ListOpts) : List QueryField :=
  [ { name := "WorkflowName", tag := "workflow_name", value := .str opts.WorkflowName,
      required := false },
    { name := "WorkflowID", tag := "workflow_id", value := .str opts.WorkflowID,
      required := false },
    { name := "Name", tag := "name", value := .str opts.Name, required := false },
    { name := "Scope", tag := "scope", value := .str opts.Scope, required := false },
    { name := "SortDir", tag := "sort_dir", value := .str opts.SortDir, required := false },
    { name := "SortKey", tag := "sort_key", value := .str opts.SortKey, required := false },
    { name := "Marker", tag := "marker", value := .str opts.Marker, required := false },
    { name := "Limit", tag := "limit", value := .int opts.Limit, required := false } ]

/-- Source `ListOpts.ToCronTriggerListQuery`. -/
def ListOpts.ToCronTriggerListQuery (opts : ListOpts) : String × Option Error :=
  BuildQueryString opts.fields

/-- Modelled from the spec: `createURL` of `crontriggers/urls.go`, which is not
among the sources; the tests serve creation under `/cron_triggers`. -/
def createURL (client : ServiceClient) : String :=
  client.ServiceURL ["cron_triggers"]

/-- Modelled from the spec: `getURL` of `crontriggers/urls.go`, which is not
among the sources; the tests serve one trigger under `/cron_triggers/1`. -/
def getURL (client : ServiceClient) (id : String) : String :=
  client.ServiceURL ["cron_triggers", id]

/-- Modelled from the spec: `deleteURL` of `crontriggers/urls.go`, which is not
among the sources; the tests delete a trigger under `/cron_triggers/1`. -/
def deleteURL (client : ServiceClient) (id : String) : String :=
  client.ServiceURL ["cron_triggers", id]

/-- CreateOpts specifies parameters used to create a cron trigger. -/
structure CreateOpts where
  Name : String
  Pattern : String
  RemainingExecutions : Int
  WorkflowInput : String
  WorkflowID : String
  WorkflowParams : String
  deriving DecidableEq, Repr

/-- The struct tags of `CreateOpts`, row by row: no field is required, three
are omitted when empty. -/
def CreateOpts.fields (opts : CreateOpts) : List BodyField :=
  [ { name := "Name", tag := "name", value := .str opts.Name,
      required := false, omitempty := false },
    { name := "Pattern", tag := "pattern", value := .str opts.Pattern,
      required := false, omitempty := false },
    { name := "RemainingExecutions", tag := "remaining_executions",
      value := .int opts.RemainingExecutions, required := false, omitempty := true },
    { name := "WorkflowInput", tag := "workflow_input", value := .str opts.WorkflowInput,
      required := false, omitempty := true },
    { name := "WorkflowID", tag := "workflow_id", value := .str opts.WorkflowID,
      required := false, omitempty := false },
    { name := "WorkflowParams", tag := "workflow_params", value := .str opts.WorkflowParams,
      required := false, omitempty := true } ]

/-- Source `CreateOpts.ToCronTriggerCreateMap`:
`return gophercloud.BuildRequestBody(opts, "execution")`. -/
def CreateOpts.ToCronTriggerCreateMap (opts : CreateOpts) : Except Error JSONMap :=
  BuildRequestBody opts.fields "execution"

/-- Source `Create`: encode the options; on an error return it in the result,
otherwise POST the body to `createURL` accepting 200 and 201. -/
def Create (client : ServiceClient) (opts : CreateOpts) : Result × List HTTPRequest :=
  match opts.ToCronTriggerCreateMap with
  | .error err => ({ Body := .null, Err := some err }, [])
  | .ok b => client.Post (createURL client) (.obj b) [200, 201]

/-- Source `Get`. -/
def Get (client : ServiceClient) (id : String) : Result × List HTTPRequest :=
  client.Get (getURL client id)

/-- Source `Delete`. -/
def Delete (client : ServiceClient) (id : String) : Result × List HTTPRequest :=
  client.Delete (deleteURL client id)

/-- The options of `TestCreateCronTrigger`: `Pattern` and
`RemainingExecutions` are left at their zero values. -/
def testCreateOpts : CreateOpts :=
  { Name := "trigger", Pattern := "", RemainingExecutions := 0, WorkflowInput := "{}",
    WorkflowID := "w1", WorkflowParams := "{}" }

/-- The server of `TestCreateCronTrigger`: every request is answered with
status 200 and a bare cron trigger object. -/
def testCreateClient : ServiceClient :=
  { Endpoint := "http://127.0.0.1/"
    transport := fun _ => .ok
      { status := 200
        body := .obj [("created_at", .str "1970-01-01 00:00:00"), ("id", .str "1"),
          ("name", .str "trigger"), ("pattern", .str "* * * * *"),
          ("project_id", .str "p1"), ("remaining_executions", .num 42),
          ("scope", .str "private"), ("updated_at", .str "1970-01-01 00:00:00"),
          ("workflow_id", .str "w1"), ("workflow_input", .str "{}"),
          ("workflow_name", .str "my_wf"), ("workflow_params", .str "{}")] } }

/-- Source `List`, as for executions. -/
def List (client : ServiceClient) (opts : Option ListOpts) : Pager :=
  match opts with
  | none => { client := client, initialURL := listURL client, Err := none }
  | some o =>
    match o.ToCronTriggerListQuery with
    | (_, some err) => { client := client, initialURL := "", Err := some err }
    | (query, none) => { client := client, initialURL := listURL client ++ query, Err := none }

end crontriggers

/-! ## workflows/results.go -/

namespace workflows

/-- Workflow represents a workflow execution on OpenStack mistral API. -/
structure Workflow where
  ID : String
  Definition : String
  Name : String
  Namespace : String
  Input : String
  ProjectID : String
  Scope : String
  deriving DecidableEq, Repr

/-- The `json` tags of `Workflow`, in declaration order. -/
def workflowTags : List String :=
  ["id", "definition", "name", "namespace", "input", "project_id", "scope"]

/-- Decoding of one JSON value into a `Workflow{}` that starts out zeroed. -/
def unmarshalWorkflow (v : JSON) : Workflow × Option Error :=
  ({ ID := scanString "id" (structMembers v).1 ""
     Definition := scanString "definition" (structMembers v).1 ""
     Name := scanString "name" (structMembers v).1 ""
     Namespace := scanString "namespace" (structMembers v).1 ""
     Input := scanString "input" (structMembers v).1 ""
     ProjectID := scanString "project_id" (structMembers v).1 ""
     Scope := scanString "scope" (structMembers v).1 "" },
   firstError (structMembers v).2 (firstStringMismatch workflowTags (structMembers v).1))

/-- The zero value `Workflow{}`. -/
def emptyWorkflow : Workflow :=
  { ID := "", Definition := "", Name := "", Namespace := "", Input := "",
    ProjectID := "", Scope := "" }

/-- Source `commonResult.Extract`: `c := Workflow{}; err := r.ExtractInto(&c);
return &c, err`. -/
def commonResult.Extract (r : Result) : Workflow × Option Error :=
  match r.Err with
  | some e => (emptyWorkflow, some e)
  | none => unmarshalWorkflow r.Body

/-- Source `CreateResult.Extract`: decode the body into
`struct { Workflows []Workflow "json:workflows" }` and return the slice
together with the error. -/
def CreateResult.Extract (r : Result) : List Workflow × Option Error :=
  match r.Err with
  | some e => ([], some e)
  | none =>
    ((scanArray "workflows" unmarshalWorkflow (structMembers r.Body).1 ([], none)).1,
     firstError (structMembers r.Body).2
       (scanArray "workflows" unmarshalWorkflow (structMembers r.Body).1 ([], none)).2)

/-- The members of the JSON object of a workflow record, one per `json` tag. -/
def workflowMembers (w : Workflow) : List (String × JSON) :=
  [("id", .str w.ID), ("definition", .str w.Definition), ("name", .str w.Name),
   ("namespace", .str w.Namespace), ("input", .str w.Input),
   ("project_id", .str w.ProjectID), ("scope", .str w.Scope)]

/-- The response body of `TestCreateWorkflow`: a bare workflow object. -/
def testCreateBody : JSON :=
  .obj [("created_at", .str "1970-01-01T00:00:00.000000"),
        ("definition", .str "Workflow Definition in Mistral DSL v2"),
        ("id", .str "1"), ("input", .str "param1, param2"), ("name", .str "flow"),
        ("namespace", .str "some-namespace"), ("project_id", .str "p1"),
        ("scope", .str "private"),
        ("updated_at", .str "1970-01-01T00:00:00.000000")]

/-- The `expected` value of `TestCreateWorkflow`. -/
def testExpected : Workflow :=
  { ID := "1", Definition := "Workflow Definition in Mistral DSL v2", Name := "flow",
    Namespace := "some-namespace", Input := "param1, param2", ProjectID := "p1",
    Scope := "private" }

end workflows

namespace executions

/-- A server that answers a POST whose body is a field set under one envelope
key by echoing that field set with a server-assigned `id` added to it, with
status 201: under the same envelope key when `enveloped`, bare otherwise. -/
def echoClient (enveloped : Bool) (id : String) : ServiceClient :=
  { Endpoint := "http://127.0.0.1/"
    transport := fun req =>
      match req.body with
      | some (.obj [(k, .obj inner)]) =>
        if enveloped then .ok { status := 201, body := .obj [(k, .obj (("id", .str id) :: inner))] }
        else .ok { status := 201, body := .obj (("id", .str id) :: inner) }
      | _ => .error (Error.request 400) }

end executions

namespace workflows

/-- Modelled from the spec: `deleteURL` of `workflows/urls.go`, which is not
among the sources; the tests delete a workflow under `/workflows/1`. -/
def deleteURL (client : ServiceClient) (id : String) : String :=
  client.ServiceURL ["workflows", id]

/-- Modelled from the spec: `Delete` of `workflows/requests.go`, which is not
among the sources: one DELETE to the URL of the workflow, as
`TestDeleteWorkflow` exercises it and as its siblings do. -/
def Delete (client : ServiceClient) (id : String) : Result × List HTTPRequest :=
  client.Delete (deleteURL client id)

/-- The response body of `TestGetWorkflow` without its `updated_at` member. -/
def testGetMembers : List (String × JSON) :=
  [("created_at", .str "1970-01-01T00:00:00.000000"),
   ("definition", .str "Workflow Definition in Mistral DSL v2"),
   ("id", .str "1"), ("input", .str "param1, param2"), ("name", .str "flow"),
   ("namespace", .str "some-namespace"), ("project_id", .str "p1"),
   ("scope", .str "private")]

end workflows

/-! ## Condition poller (acceptance tools, modelled) -/

namespace tools

/-- Modelled from the spec: the `check` of section 4.5, `() -> (done, err)`.
It is a closure, so it carries a state of its own, which each invocation may
change. -/
abbrev Check (σ : Type) := σ → σ × Bool × Option Error

/-- Modelled from the spec: `tools.WaitFor(check)`, the `PollUntil` of section
4.5: invoke `check`; a non-nil error ends the loop with that error, `done`
without error ends it with success, anything else repeats.  The sleep between
invocations is not part of the model.  The result holds the error returned,
the number of invocations of `check`, and the state `check` is left in;
`fuel` bounds the number of invocations. -/
def WaitFor {σ : Type} (check : Check σ) : Nat → σ → Option (Option Error × Nat × σ)
  | 0, _ => none
  | fuel + 1, s =>
    match check s with
    | (s1, _, some err) => some (some err, 1, s1)
    | (s1, true, none) => some (none, 1, s1)
    | (s1, false, none) =>
      match WaitFor check fuel s1 with
      | none => none
      | some (err, n, s2) => some (err, n + 1, s2)

/-- The state `check` is in after `n` invocations from state `s`. -/
def pollState {σ : Type} (check : Check σ) : σ → Nat → σ
  | s, 0 => s
  | s, n + 1 => pollState check (check s).1 n

/-- A `check` that replays a list of results: its state is the number of
invocations so far; past the end of the list it reports `(false, nil)`. -/
def replay (results : List (Bool × Option Error)) : Check Nat :=
  fun i => (i + 1, results.getD i (false, none))

end tools

/-! ## acceptance/openstack/workflow/v2/workflow.go -/

namespace acceptance

/-- How a test helper ends: it returns its two results, or one of its
assertions (`th.AssertEquals`, `th.AssertNoErr`) fails and aborts the test. -/
inductive Outcome where
  | returned (execution : executions.Execution) (err : Option Error) : Outcome
  | fatal : Outcome

/-- The `check` closure that `CreateExecution` hands to `tools.WaitFor`.  Its
state is the number of the request it is about to issue and the captured
variable `execution`.  It gets the execution by the id of `execution`; an error
is returned as it is; state "SUCCESS" stores the execution read into
`execution` and reports done; state "ERROR" reports an error; any other state
reports neither.  `clientAt i` is the client as the server answers its `i`-th
request. -/
def waitCheck (clientAt : Nat → ServiceClient) : tools.Check (Nat × executions.Execution) :=
  fun st =>
    match executions.commonResult.Extract (executions.Get (clientAt st.1) st.2.ID).1 with
    | (_, some err) => ((st.1 + 1, st.2), false, some err)
    | (latest, none) =>
      if latest.State = "SUCCESS" then ((st.1 + 1, latest), true, none)
      else if latest.State = "ERROR" then
        ((st.1 + 1, st.2), false, some (Error.custom "Execution in ERROR state"))
      else ((st.1 + 1, st.2), false, none)

/-- Source `CreateExecution`: create an execution of the workflow with the
description `executionDescription` (the random string of the source), return
early with the error if that fails, assert that the description came back,
wait for the state "SUCCESS" asserting that the wait reports no error, and
return `execution`.  Request 0 is the Create, request `i` the `i`-th Get of
the wait; `fuel` bounds the number of invocations of the check. -/
def CreateExecution (clientAt : Nat → ServiceClient) (workflow : workflows.Workflow)
    (executionDescription : String) (fuel : Nat) : Option Outcome :=
  match executions.commonResult.Extract
      (executions.Create (clientAt 0)
        { WorkflowID := workflow.ID, WorkflowNamespace := workflow.Namespace,
          Description := executionDescription, Input := "{}", Params := "{}" }).1 with
  | (execution, some err) => some (.returned execution (some err))
  | (execution, none) =>
    if execution.Description = executionDescription then
      match tools.WaitFor (waitCheck clientAt) fuel (1, execution) with
      | none => none
      | some (some _, _, _) => some .fatal
      | some (none, _, st) => some (.returned st.2 none)
    else some .fatal

/-- A server for `CreateExecution`: the Create (request 0) is answered with the
bare record of a running execution "e1" with the given description, the first
two Gets with that record, every later Get with the record in state
"SUCCESS". -/
def testClientAt (description : String) (i : Nat) : ServiceClient :=
  { Endpoint := "http://127.0.0.1/"
    transport := fun _ => .ok
      { status := 200
        body := executions.executionJSON
          { ID := "e1", Description := description, Input := "{}", Output := "",
            Params := "{}", ProjectID := "p1",
            State := if i ≤ 2 then "RUNNING" else "SUCCESS",
            WorkflowID := "w1", WorkflowName := "flow", WorkflowNamespace := "" } } }

end acceptance

namespace executions

/-- A Get response body: the bare record of `TestGetExecution` with a
`created_at` that is not in the timestamp wire format. -/
def badTimestampBody : JSON :=
  .obj [("created_at", .str "not-a-date"),
        ("description", .str "this is a description"),
        ("id", .str "1"), ("input", .str "{}"), ("output", .str "{}"),
        ("params", .str "{}"), ("project_id", .str "p1"),
        ("state", .str "SUCCESS"),
        ("updated_at", .str "1970-01-01T00:00:00.000000"),
        ("workflow_id", .str "w1"), ("workflow_name", .str "flow"),
        ("workflow_namespace", .str "some_namespace")]

end executions

/-! ## Vocabulary for statements about iterations -/

/-- The pages `pages` are what the server hands out from `url` on: each is the
answer to a GET of the current URL, is not empty, and carries a next link that
decodes and is not empty, which is the URL of the page after it. -/
def LinkedPages (client : ServiceClient) (kind : PageKind) : String → List JSON → Prop
  | _, [] => True
  | url, b :: rest =>
    (client.Get url).1.Err = none ∧ (client.Get url).1.Body = b ∧
    kind.IsEmpty b = (false, none) ∧
    (kind.NextPageURL b).2 = none ∧ (kind.NextPageURL b).1 ≠ "" ∧
    LinkedPages client kind (kind.NextPageURL b).1 rest

/-- The URLs of the pages `pages`, the first being `url`. -/
def chainURLs (kind : PageKind) : String → List JSON → List String
  | _, [] => []
  | url, b :: rest => url :: chainURLs kind (kind.NextPageURL b).1 rest

/-- The URL that the next link of the last of `pages` points to (`url` itself
when there is no page). -/
def lastURL (kind : PageKind) : String → List JSON → String
  | url, [] => url
  | _, b :: rest => lastURL kind (kind.NextPageURL b).1 rest

/-- The visitor, started in state `s`, asks to continue and reports no error on
each of `pages` in turn. -/
def Continues {σ : Type} (handler : Handler σ) : σ → List JSON → Prop
  | _, [] => True
  | s, b :: rest => (handler s b).2 = (true, none) ∧ Continues handler (handler s b).1 rest

/-- The state of the visitor after it has been handed `pages` in turn. -/
def stateAfter {σ : Type} (handler : Handler σ) : σ → List JSON → σ
  | s, [] => s
  | s, b :: rest => stateAfter handler (handler s b).1 rest

namespace executions

/-- The first page of `TestListExecutions`. -/
def testPage1 : JSON :=
  .obj [("executions", .arr [.obj
    [("created_at", .str "1970-01-01T00:00:00.000000"),
     ("description", .str "this is a description"),
     ("id", .str "1"), ("input", .str "{}"), ("output", .str "{}"),
     ("params", .str "{}"), ("project_id", .str "p1"),
     ("state", .str "SUCCESS"),
     ("updated_at", .str "1970-01-01T00:00:00.000000"),
     ("workflow_id", .str "w1"), ("workflow_name", .str "flow"),
     ("workflow_namespace", .str "some_namespace")]]),
    ("next", .str "http://127.0.0.1/executions?marker=1")]

/-- The second page of `TestListExecutions`: `{ "executions": [] }`. -/
def testPage2 : JSON :=
  .obj [("executions", .arr [])]

/-- The server of `TestListExecutions`: the first page without a marker, the
empty page for the marker `1`, a failure for anything else. -/
def testListClient : ServiceClient :=
  { Endpoint := "http://127.0.0.1/"
    transport := fun req =>
      if req.url = "http://127.0.0.1/executions" then .ok { status := 200, body := testPage1 }
      else if req.url = "http://127.0.0.1/executions?marker=1" then
        .ok { status := 200, body := testPage2 }
      else .error (Error.request 404) }

/-- The visitor of `TestListExecutions`: count the page (`pages++`), extract
its executions, return their error if any, otherwise ask to continue. -/
def testHandler : Handler Nat :=
  fun pages page =>
    match (ExtractExecutions page).2 with
    | some err => (pages + 1, false, some err)
    | none => (pages + 1, true, none)

/-- A visitor that asks to stop on its first page. -/
def stopHandler : Handler Nat :=
  fun pages _ => (pages + 1, false, none)

/-- An empty page whose next link is a number instead of a string. -/
def emptyPageBadNext : JSON :=
  .obj [("executions", .arr []), ("next", .num 5)]

/-- A page with one execution whose next link is a number. -/
def fullPageBadNext : JSON :=
  .obj [("executions", .arr [executionJSON testExpected]), ("next", .num 5)]

/-- A server that answers every request with the given body. -/
def constClient (body : JSON) : ServiceClient :=
  { Endpoint := "http://127.0.0.1/"
    transport := fun _ => .ok { status := 200, body := body } }

end executions

/-! ## Theorems -/

/-- Every wire name of the sources is its own folding. -/
theorem foldKey_wire_names :
    foldKey "id" = "id" ∧ foldKey "description" = "description" ∧
    foldKey "input" = "input" ∧ foldKey "output" = "output" ∧
    foldKey "params" = "params" ∧ foldKey "project_id" = "project_id" ∧
    foldKey "state" = "state" ∧ foldKey "workflow_id" = "workflow_id" ∧
    foldKey "workflow_name" = "workflow_name" ∧
    foldKey "workflow_namespace" = "workflow_namespace" ∧
    foldKey "definition" = "definition" ∧ foldKey "name" = "name" ∧
    foldKey "namespace" = "namespace" ∧ foldKey "scope" = "scope" ∧
    foldKey "workflows" = "workflows" ∧ foldKey "executions" = "executions" ∧
    foldKey "next" = "next" := by
  decide

/-- Decoding the bare object of a record gives the record back. -/
theorem unmarshalExecution_executionJSON (e : executions.Execution) :
    executions.unmarshalExecution (executions.executionJSON e) = (e, none) := by
  obtain ⟨f1, f2, f3, f4, f5, f6, f7, f8, f9, f10, f11, f12, f13, f14, f15, f16, f17⟩ :=
    foldKey_wire_names
  simp [executions.unmarshalExecution, executions.executionJSON, structMembers, scanString,
    firstStringMismatch, executions.executionTags, firstError, f1, f2, f3, f4, f5, f6, f7, f8, f9, f10, f11, f12, f13, f14,
    f15, f16, f17]

/-- C1 (fails on the code): on the body of `TestGetExecution`, where the record
sits under the key "execution", `Extract` reports no error and returns the
zero `Execution` (ID and State empty) instead of the record the test expects,
although the same record as a bare object is decoded in full. -/
theorem Extract_enveloped_body_is_empty :
    executions.commonResult.Extract { Body := executions.testGetBody, Err := none }
      = (executions.emptyExecution, none) ∧
    (executions.commonResult.Extract
      { Body := executions.testGetBody, Err := none }).1.ID = "" ∧
    (executions.commonResult.Extract
      { Body := executions.testGetBody, Err := none }).1.State = "" ∧
    executions.commonResult.Extract
        { Body := executions.executionJSON executions.testExpected, Err := none }
      = (executions.testExpected, none) ∧
    executions.commonResult.Extract { Body := executions.testGetBody, Err := none }
      ≠ executions.commonResult.Extract
          { Body := executions.executionJSON executions.testExpected, Err := none } := by
  refine ⟨by decide, by decide, by decide, by decide, by decide⟩

/-- C3: when `WorkflowID` is empty, `ToExecutionCreateMap` fails with the
validation error naming `WorkflowID`, and `Create` returns a result carrying
that same error while the list of requests handed to the transport is empty. -/
theorem Create_empty_WorkflowID_no_request (client : ServiceClient)
    (opts : executions.CreateOpts) (h : opts.WorkflowID = "") :
    opts.ToExecutionCreateMap = .error (Error.missingInput "WorkflowID") ∧
    (executions.Create client opts).1.Err = some (Error.missingInput "WorkflowID") ∧
    (executions.Create client opts).2 = [] := by
  have hmap : opts.ToExecutionCreateMap = .error (Error.missingInput "WorkflowID") := by
    simp [executions.CreateOpts.ToExecutionCreateMap, BuildRequestBody,
      executions.CreateOpts.fields, validateRequired, FieldValue.isZero, h]
  refine ⟨hmap, ?_, ?_⟩ <;> simp [executions.Create, hmap]

/-- Witness of C3 on the all-empty options and the server of
`TestCreateExecution`. -/
theorem Create_empty_WorkflowID_no_request_witness :
    (⟨"", "", "", "", ""⟩ : executions.CreateOpts).WorkflowID = "" ∧
    (executions.Create executions.testCreateClient ⟨"", "", "", "", ""⟩).2 = [] :=
  ⟨rfl,
   (Create_empty_WorkflowID_no_request executions.testCreateClient
      ⟨"", "", "", "", ""⟩ rfl).2.2⟩

/-- C4: with a non-empty `WorkflowID`, `ToExecutionCreateMap` succeeds with a
map whose only key is "execution"; the object under it has distinct keys, holds
"workflow_id" with the `WorkflowID`, holds each of "workflow_namespace",
"input", "params", "description" exactly when the field is non-empty (then with
the field's value), and holds no other key. -/
theorem ToExecutionCreateMap_shape (opts : executions.CreateOpts) (h : opts.WorkflowID ≠ "") :
    ∃ inner : JSONMap,
      opts.ToExecutionCreateMap = .ok [("execution", .obj inner)] ∧
      (inner.map Prod.fst).Nodup ∧
      inner.get? "workflow_id" = some (.str opts.WorkflowID) ∧
      inner.get? "workflow_namespace" =
        (if opts.WorkflowNamespace = "" then none else some (.str opts.WorkflowNamespace)) ∧
      inner.get? "input" = (if opts.Input = "" then none else some (.str opts.Input)) ∧
      inner.get? "params" = (if opts.Params = "" then none else some (.str opts.Params)) ∧
      inner.get? "description" =
        (if opts.Description = "" then none else some (.str opts.Description)) ∧
      ∀ k, k ∉ ["workflow_id", "workflow_namespace", "input", "params", "description"] →
        inner.get? k = none := by
  refine ⟨marshalFields opts.fields, ?_, ?_, ?_, ?_, ?_, ?_, ?_, ?_⟩
  · simp [executions.CreateOpts.ToExecutionCreateMap, BuildRequestBody, executions.CreateOpts.fields,
      validateRequired, FieldValue.isZero, h]
  all_goals
    by_cases h1 : opts.WorkflowNamespace = "" <;> by_cases h2 : opts.Input = "" <;>
    by_cases h3 : opts.Params = "" <;> by_cases h4 : opts.Description = "" <;>
    simp [executions.CreateOpts.fields, marshalFields, FieldValue.isZero, FieldValue.toJSON,
      JSONMap.get?, h1, h2, h3, h4]
  all_goals
    intro k hk1 hk2 hk3 hk4 hk5
    simp [Ne.symm hk1, Ne.symm hk2, Ne.symm hk3, Ne.symm hk4, Ne.symm hk5]

/-- Witness of C4 on the options of `TestCreateExecution`. -/
theorem ToExecutionCreateMap_shape_witness :
    executions.testCreateOpts.WorkflowID ≠ "" ∧
    ∃ inner : JSONMap,
      executions.testCreateOpts.ToExecutionCreateMap = .ok [("execution", .obj inner)] ∧
      (inner.map Prod.fst).Nodup ∧
      inner.get? "workflow_id" = some (.str executions.testCreateOpts.WorkflowID) ∧
      inner.get? "workflow_namespace" =
        (if executions.testCreateOpts.WorkflowNamespace = "" then none
         else some (.str executions.testCreateOpts.WorkflowNamespace)) ∧
      inner.get? "input" =
        (if executions.testCreateOpts.Input = "" then none else some (.str executions.testCreateOpts.Input)) ∧
      inner.get? "params" =
        (if executions.testCreateOpts.Params = "" then none else some (.str executions.testCreateOpts.Params)) ∧
      inner.get? "description" =
        (if executions.testCreateOpts.Description = "" then none
         else some (.str executions.testCreateOpts.Description)) ∧
      ∀ k, k ∉ ["workflow_id", "workflow_namespace", "input", "params", "description"] →
        inner.get? k = none :=
  ⟨by decide, ToExecutionCreateMap_shape executions.testCreateOpts (by decide)⟩

/-! ### Query strings -/

/-- The parameters of the non-zero fields, in field order. -/
theorem buildValues_of_optional (fields : List QueryField)
    (hopt : ∀ f ∈ fields, f.required = false) :
    buildValues fields =
      .ok (fields.filterMap fun f =>
        if f.value.isZero then none else some (f.tag, f.value.render)) := by
  induction fields with
  | nil => rfl
  | cons f rest ih =>
    have hrest := ih (fun g hg => hopt g (List.mem_cons_of_mem _ hg))
    have hf := hopt f (List.mem_cons_self _ _)
    by_cases hz : f.value.isZero = true
    · simp [buildValues, hz, hf, hrest]
    · simp [buildValues, hz, hrest]

/-- The parameters built from fields none of which is required. -/
theorem buildValues_eq_presentValues (fields : List QueryField)
    (hopt : ∀ f ∈ fields, f.required = false) :
    buildValues fields = .ok (presentValues fields) :=
  buildValues_of_optional fields hopt

/-- The parameters of two lists of fields, one after the other. -/
theorem presentValues_append (front back : List QueryField) :
    presentValues (front ++ back) = presentValues front ++ presentValues back := by
  simp [presentValues, List.filterMap_append]

/-- Every parameter carries the wire name of one of the fields. -/
theorem presentValues_keys (fields : List QueryField) :
    ∀ x ∈ presentValues fields, x.1 ∈ fields.map (·.tag) := by
  induction fields with
  | nil => intro x hx; simp [presentValues] at hx
  | cons f rest ih =>
    intro x hx
    by_cases hz : f.value.isZero = true
    · have hx2 : x ∈ presentValues rest := by
        simpa [presentValues, List.filterMap_cons, hz] using hx
      simpa using Or.inr (by simpa using ih x hx2)
    · have hx2 : x = (f.tag, f.value.render) ∨ x ∈ presentValues rest := by
        simpa [presentValues, List.filterMap_cons, hz] using hx
      rcases hx2 with h | h
      · simp [h]
      · simpa using Or.inr (by simpa using ih x h)

/-- A parameter is inserted after the parameters it is not less than and
before those it is less than. -/
theorem insertByKey_place (kv : String × String) (back : Values)
    (hback : ∀ x ∈ back, lessChars kv.1.toList x.1.toList = true) :
    ∀ front : Values, (∀ x ∈ front, lessChars kv.1.toList x.1.toList = false) →
      insertByKey kv (front ++ back) = front ++ kv :: back := by
  intro front
  induction front with
  | nil =>
    intro _
    cases back with
    | nil => rfl
    | cons x rest =>
      have hb : lessChars kv.1.data x.1.data = true := hback x (List.mem_cons_self _ _)
      simp [insertByKey, hb]
  | cons x rest ih =>
    intro hfront
    have hx : lessChars kv.1.data x.1.data = false := hfront x (List.mem_cons_self _ _)
    simp [insertByKey, hx, ih (fun y hy => hfront y (List.mem_cons_of_mem _ hy))]

/-- One step of ordering the parameters of a list of fields: when the
parameters of `fs` in key order are those of `A ++ B`, and the wire name of `f`
is not less than those of `A` and less than those of `B`, the parameters of
`f :: fs` in key order are those of `A ++ f :: B`. -/
theorem sortByKey_place (f : QueryField) (A B fs : List QueryField) (ft : String)
    (ta tb : List String) (hft : f.tag = ft)
    (hta : A.map (·.tag) = ta) (htb : B.map (·.tag) = tb)
    (hA : ∀ t ∈ ta, lessChars ft.toList t.toList = false)
    (hB : ∀ t ∈ tb, lessChars ft.toList t.toList = true)
    (hsorted : sortByKey (presentValues fs) = presentValues (A ++ B)) :
    sortByKey (presentValues (f :: fs)) = presentValues (A ++ f :: B) := by
  subst hft hta htb
  by_cases hz : f.value.isZero = true
  · have h1 : presentValues (f :: fs) = presentValues fs := by
      simp [presentValues, List.filterMap_cons, hz]
    have h2 : presentValues (A ++ f :: B) = presentValues (A ++ B) := by
      simp [presentValues, List.filterMap_append, List.filterMap_cons, hz]
    rw [h1, h2, hsorted]
  · have h1 : presentValues (f :: fs) = (f.tag, f.value.render) :: presentValues fs := by
      simp [presentValues, List.filterMap_cons, hz]
    have h2 : presentValues (A ++ f :: B)
        = presentValues A ++ (f.tag, f.value.render) :: presentValues B := by
      simp [presentValues, List.filterMap_append, List.filterMap_cons, hz]
    rw [h1, h2]
    show insertByKey (f.tag, f.value.render) (sortByKey (presentValues fs)) = _
    rw [hsorted, presentValues_append]
    exact insertByKey_place (f.tag, f.value.render) (presentValues B)
      (fun x hx => hB x.1 (presentValues_keys B x hx)) (presentValues A)
      (fun x hx => hA x.1 (presentValues_keys A x hx))

/-- A string that starts with a non-empty string is not empty. -/
theorem append_ne_empty (a b : String) (ha : a ≠ "") : a ++ b ≠ "" := by
  intro h
  apply ha
  have hd : (a ++ b).data = [] := by rw [h]
  rw [String.data_append] at hd
  have : a.data = [] := (List.append_eq_nil.mp hd).1
  exact String.ext this

/-- Joining pieces the first of which is not empty gives a non-empty string. -/
theorem intercalate_ne_empty (sep p : String) (rest : List String) (hp : p ≠ "") :
    sep.intercalate (p :: rest) ≠ "" := by
  have hgo : ∀ (l : List String) (acc : String), acc ≠ "" →
      String.intercalate.go acc sep l ≠ "" := by
    intro l
    induction l with
    | nil => intro acc hacc; simpa [String.intercalate.go] using hacc
    | cons a as ih =>
      intro acc hacc
      simp only [String.intercalate.go]
      exact ih _ (by
        rw [String.append_assoc]
        exact append_ne_empty acc (sep ++ a) hacc)
  simpa [String.intercalate] using hgo rest p hp

/-- Escaping leaves a string of unreserved characters (letters, digits and
`-_.~`) as it is. -/
theorem QueryEscape_unreserved (s : String)
    (h : ∀ c ∈ s.toList, c.isAlphanum = true ∨ c = '-' ∨ c = '_' ∨ c = '.' ∨ c = '~') :
    QueryEscape s = s := by
  have hflat : ∀ l : List Char,
      (∀ c ∈ l, c.isAlphanum = true ∨ c = '-' ∨ c = '_' ∨ c = '.' ∨ c = '~') →
      l.flatMap escapeChar = l := by
    intro l
    induction l with
    | nil => intro _; rfl
    | cons c rest ih =>
      intro hl
      have hc := hl c (List.mem_cons_self _ _)
      have hesc : escapeChar c = [c] := by
        unfold escapeChar
        rw [if_pos]
        simpa [or_assoc] using hc
      simp [List.flatMap_cons, hesc, ih (fun d hd => hl d (List.mem_cons_of_mem _ hd))]
  unfold QueryEscape
  rw [hflat s.toList h]
  cases s
  rfl

/-- The decimal digits are letters or digits in the sense of escaping. -/
theorem digitChar_isAlphanum (d : Nat) (h : d < 10) : (Nat.digitChar d).isAlphanum = true := by
  interval_cases d <;> decide

/-- The digits that `Nat.toDigitsCore` puts before `ds` in base ten are
decimal digits. -/
theorem toDigitsCore_isAlphanum (fuel : Nat) :
    ∀ (n : Nat) (ds : List Char), (∀ c ∈ ds, c.isAlphanum = true) →
      ∀ c ∈ Nat.toDigitsCore 10 fuel n ds, c.isAlphanum = true := by
  induction fuel with
  | zero => intro n ds hds c hc; exact hds c (by simpa [Nat.toDigitsCore] using hc)
  | succ fuel ih =>
    intro n ds hds c hc
    have hd : ∀ c ∈ Nat.digitChar (n % 10) :: ds, c.isAlphanum = true := by
      intro c hc
      rcases List.mem_cons.mp hc with h | h
      · rw [h]; exact digitChar_isAlphanum _ (Nat.mod_lt _ (by decide))
      · exact hds c h
    simp only [Nat.toDigitsCore] at hc
    split at hc
    · exact hd c hc
    · exact ih _ _ hd c hc

/-- The decimal text of an integer is made of digits and `-`, which escaping
leaves alone. -/
theorem QueryEscape_toString_int (n : Int) : QueryEscape (toString n) = toString n := by
  apply QueryEscape_unreserved
  have hnat : ∀ m : Nat, ∀ c ∈ (Nat.repr m).toList, c.isAlphanum = true := by
    intro m c hc
    exact toDigitsCore_isAlphanum _ m [] (by simp) c (by simpa [Nat.repr, Nat.toDigits] using hc)
  intro c hc
  cases n with
  | ofNat m => exact Or.inl (hnat m c hc)
  | negSucc m =>
    have hc2 : c ∈ ("-" ++ Nat.repr (m + 1)).toList := hc
    rw [String.toList, String.data_append] at hc2
    rcases List.mem_append.mp hc2 with h | h
    · right; left
      simpa using h
    · exact Or.inl (hnat (m + 1) c h)

/-- The parameters in key order, written out, are the texts of the fields in
key order. -/
theorem map_presentValues (fields : List QueryField) :
    (presentValues fields).map (fun kv => QueryEscape kv.1 ++ "=" ++ QueryEscape kv.2)
      = List.filterMap id (fields.map paramText) := by
  induction fields with
  | nil => rfl
  | cons f rest ih =>
    by_cases hz : f.value.isZero = true
    · have h1 : presentValues (f :: rest) = presentValues rest := by
        simp [presentValues, List.filterMap_cons, hz]
      simp [h1, ih, paramText, hz]
    · have h1 : presentValues (f :: rest) = (f.tag, f.value.render) :: presentValues rest := by
        simp [presentValues, List.filterMap_cons, hz]
      simp [h1, ih, paramText, hz]

/-- No parameter text is empty. -/
theorem paramText_ne_empty (fields : List QueryField) :
    ∀ p ∈ List.filterMap id (fields.map paramText), p ≠ "" := by
  intro p hp
  simp only [List.mem_filterMap, List.mem_map, id] at hp
  obtain ⟨o, ⟨f, _, hf⟩, ho⟩ := hp
  subst ho
  unfold paramText at hf
  split at hf
  · cases hf
  · injection hf with hf
    rw [← hf]
    apply append_ne_empty
    intro h
    have hd : (QueryEscape f.tag ++ "=").data = [] := by rw [h]
    rw [String.data_append] at hd
    simp at hd

/-- The query string of a list of optional fields, given the order of its
fields by wire name: nothing when all fields are zero, otherwise `?` followed
by the texts of the non-zero fields in that order, joined with `&`. -/
theorem BuildQueryString_text (fields sorted : List QueryField)
    (hopt : ∀ f ∈ fields, f.required = false)
    (hsort : sortByKey (presentValues fields) = presentValues sorted) :
    BuildQueryString fields =
      (if List.filterMap id (sorted.map paramText) = [] then ""
       else "?" ++ "&".intercalate (List.filterMap id (sorted.map paramText)), none) := by
  simp only [BuildQueryString, buildValues_eq_presentValues fields hopt, Values.Encode, hsort,
    map_presentValues, URLString]
  rcases hp : List.filterMap id (sorted.map paramText) with _ | ⟨p, rest⟩
  · simp [String.intercalate]
  · have hne : p ≠ "" := paramText_ne_empty sorted p (by rw [hp]; exact List.mem_cons_self _ _)
    simp [intercalate_ne_empty "&" p rest hne]

/-- A hexadecimal digit is read back as its value. -/
theorem unhex_hexDigit (d : Nat) (h : d < 16) : unhex (hexDigit d) = some d := by
  interval_cases d <;> rfl

/-- The UTF-8 bytes of a code point are bytes. -/
theorem utf8Bytes_lt (n : Nat) (hn : n < 0x110000) : ∀ b ∈ utf8Bytes n, b < 256 := by
  intro b hb
  unfold utf8Bytes at hb
  split at hb
  · simp at hb; omega
  · split at hb
    · simp at hb; omega
    · split at hb
      · simp at hb; omega
      · simp at hb; omega

/-- Bytes written as `%XX` are read back as they are. -/
theorem unescapeBytes_percent (bs : List Nat) (hbs : ∀ b ∈ bs, b < 256) (tail : List Char) :
    unescapeBytes .start
        ((bs.flatMap fun b => ['%', hexDigit (b / 16), hexDigit (b % 16)]) ++ tail)
      = (unescapeBytes .start tail).map (bs ++ ·) := by
  induction bs with
  | nil =>
    show unescapeBytes .start tail = _
    cases unescapeBytes .start tail <;> rfl
  | cons b rest ih =>
    have hb := hbs b (List.mem_cons_self _ _)
    have h1 : unhex (hexDigit (b / 16)) = some (b / 16) := unhex_hexDigit _ (by omega)
    have h2 : unhex (hexDigit (b % 16)) = some (b % 16) := unhex_hexDigit _ (by omega)
    have h3 : b / 16 * 16 + b % 16 = b := by omega
    have ih2 := ih (fun x hx => hbs x (List.mem_cons_of_mem _ hx))
    show unescapeBytes .start ('%' :: hexDigit (b / 16) :: hexDigit (b % 16) ::
      ((rest.flatMap fun b => ['%', hexDigit (b / 16), hexDigit (b % 16)]) ++ tail)) = _
    rw [unescapeBytes, if_pos rfl, unescapeBytes, h1]
    show unescapeBytes (.high (b / 16)) _ = _
    rw [unescapeBytes, h2]
    show (unescapeBytes .start _).map ((b / 16 * 16 + b % 16) :: ·) = _
    rw [ih2, h3]
    cases unescapeBytes .start tail <;> rfl

/-- A character is a code point below 0x110000. -/
theorem char_toNat_lt (c : Char) : c.toNat < 0x110000 := by
  have h := c.valid
  have : c.toNat = c.val.toNat := rfl
  rw [this]
  rcases h with h | ⟨_, h⟩
  · exact Nat.lt_trans h (by decide)
  · exact h

/-- Letters and digits are ASCII. -/
theorem alnum_lt (c : Char) (h : c.isAlphanum = true) : c.toNat < 128 := by
  simp only [Char.isAlphanum, Char.isAlpha, Char.isUpper, Char.isLower, Char.isDigit,
    Bool.or_eq_true, Bool.and_eq_true, decide_eq_true_eq, ge_iff_le] at h
  simp only [UInt32.le_def, Fin.le_def] at h
  have : c.toNat = c.val.val.val := rfl
  rw [this]
  rcases h with (⟨_, h⟩ | ⟨_, h⟩) | ⟨_, h⟩ <;>
    exact Nat.lt_of_le_of_lt h (by decide)

/-- An unreserved character is ASCII and is neither `%` nor `+`. -/
theorem unreserved_facts (c : Char)
    (h : (c.isAlphanum || c = '-' || c = '_' || c = '.' || c = '~') = true) :
    c.toNat < 128 ∧ c ≠ '%' ∧ c ≠ '+' := by
  refine ⟨?_, ?_, ?_⟩
  · simp only [Bool.or_eq_true, decide_eq_true_eq] at h
    rcases h with (((h | h) | h) | h) | h
    · exact alnum_lt c h
    all_goals subst h; decide
  · intro hc; subst hc; revert h; decide
  · intro hc; subst hc; revert h; decide

/-- The escaped text of a list of characters is read back as their UTF-8
bytes. -/
theorem unescapeBytes_escape (cs : List Char) :
    unescapeBytes .start (cs.flatMap escapeChar)
      = some (cs.flatMap fun c => utf8Bytes c.toNat) := by
  induction cs with
  | nil => rfl
  | cons c rest ih =>
    show unescapeBytes .start (escapeChar c ++ rest.flatMap escapeChar)
      = some (utf8Bytes c.toNat ++ rest.flatMap fun c => utf8Bytes c.toNat)
    by_cases h : (c.isAlphanum || c = '-' || c = '_' || c = '.' || c = '~') = true
    · obtain ⟨hlt, hp, hq⟩ := unreserved_facts c h
      have hb : utf8Bytes c.toNat = [c.toNat] := by simp [utf8Bytes, hlt]
      have he : escapeChar c = [c] := by unfold escapeChar; rw [if_pos h]
      rw [he, hb]
      show unescapeBytes .start (c :: rest.flatMap escapeChar) = _
      rw [unescapeBytes, if_neg hp, if_neg hq, ih]
      rfl
    · by_cases hs : c = ' '
      · have he : escapeChar c = ['+'] := by unfold escapeChar; rw [if_neg h, if_pos hs]
        have hb : utf8Bytes c.toNat = [32] := by rw [hs]; decide
        rw [he, hb]
        show unescapeBytes .start ('+' :: rest.flatMap escapeChar) = _
        rw [unescapeBytes, if_neg (by decide), if_pos rfl, ih]
        rfl
      · have he : escapeChar c
            = (utf8Bytes c.toNat).flatMap fun b => ['%', hexDigit (b / 16), hexDigit (b % 16)] := by
          unfold escapeChar; rw [if_neg h, if_neg hs]
        rw [he, unescapeBytes_percent _ (utf8Bytes_lt _ (char_toNat_lt c)), ih]
        rfl

/-- The UTF-8 bytes of a list of characters are read back as the characters. -/
theorem utf8Chars_bytes (cs : List Char) :
    utf8Chars 0 0 (cs.flatMap fun c => utf8Bytes c.toNat) = some cs := by
  induction cs with
  | nil => rfl
  | cons c rest ih =>
    have hn := char_toNat_lt c
    have hc : Char.ofNat c.toNat = c := Char.ofNat_toNat c
    show utf8Chars 0 0 (utf8Bytes c.toNat ++ rest.flatMap fun c => utf8Bytes c.toNat) = _
    by_cases h1 : c.toNat < 0x80
    · have hb : utf8Bytes c.toNat = [c.toNat] := by simp [utf8Bytes, h1]
      rw [hb]
      show utf8Chars 0 0 (c.toNat :: rest.flatMap fun c => utf8Bytes c.toNat) = _
      rw [utf8Chars, if_pos h1, ih, hc]
      rfl
    · by_cases h2 : c.toNat < 0x800
      · have hb : utf8Bytes c.toNat = [0xC0 + c.toNat / 64, 0x80 + c.toNat % 64] := by
          simp [utf8Bytes, h1, h2]
        have a1 : ¬ (0xC0 + c.toNat / 64 < 0x80) := by omega
        have a2 : 0xC0 + c.toNat / 64 < 0xE0 := by omega
        have a3 : (0xC0 + c.toNat / 64 - 0xC0) * 64 + (0x80 + c.toNat % 64 - 0x80)
            = c.toNat := by omega
        rw [hb]
        show utf8Chars 0 0 ((0xC0 + c.toNat / 64) :: (0x80 + c.toNat % 64) ::
          rest.flatMap fun c => utf8Bytes c.toNat) = _
        rw [utf8Chars, if_neg a1, if_pos a2, utf8Chars, if_pos rfl, a3, ih, hc]
        rfl
      · by_cases h3 : c.toNat < 0x10000
        · have hb : utf8Bytes c.toNat
              = [0xE0 + c.toNat / 4096, 0x80 + c.toNat / 64 % 64, 0x80 + c.toNat % 64] := by
            simp [utf8Bytes, h1, h2, h3]
          have a1 : ¬ (0xE0 + c.toNat / 4096 < 0x80) := by omega
          have a2 : ¬ (0xE0 + c.toNat / 4096 < 0xE0) := by omega
          have a3 : 0xE0 + c.toNat / 4096 < 0xF0 := by omega
          have a4 : ((0xE0 + c.toNat / 4096 - 0xE0) * 64
              + (0x80 + c.toNat / 64 % 64 - 0x80)) * 64
              + (0x80 + c.toNat % 64 - 0x80) = c.toNat := by omega
          rw [hb]
          show utf8Chars 0 0 ((0xE0 + c.toNat / 4096) :: (0x80 + c.toNat / 64 % 64) ::
            (0x80 + c.toNat % 64) :: rest.flatMap fun c => utf8Bytes c.toNat) = _
          rw [utf8Chars, if_neg a1, if_neg a2, if_pos a3, utf8Chars, if_neg (by decide),
            utf8Chars, if_pos rfl, a4, ih, hc]
          rfl
        · have hb : utf8Bytes c.toNat
              = [0xF0 + c.toNat / 262144, 0x80 + c.toNat / 4096 % 64,
                 0x80 + c.toNat / 64 % 64, 0x80 + c.toNat % 64] := by
            simp [utf8Bytes, h1, h2, h3]
          have a1 : ¬ (0xF0 + c.toNat / 262144 < 0x80) := by omega
          have a2 : ¬ (0xF0 + c.toNat / 262144 < 0xE0) := by omega
          have a3 : ¬ (0xF0 + c.toNat / 262144 < 0xF0) := by omega
          have a4 : (((0xF0 + c.toNat / 262144 - 0xF0) * 64
              + (0x80 + c.toNat / 4096 % 64 - 0x80)) * 64
              + (0x80 + c.toNat / 64 % 64 - 0x80)) * 64
              + (0x80 + c.toNat % 64 - 0x80) = c.toNat := by omega
          rw [hb]
          show utf8Chars 0 0 ((0xF0 + c.toNat / 262144) :: (0x80 + c.toNat / 4096 % 64) ::
            (0x80 + c.toNat / 64 % 64) :: (0x80 + c.toNat % 64) :: rest.flatMap fun c => utf8Bytes c.toNat) = _
          rw [utf8Chars, if_neg a1, if_neg a2, if_neg a3, utf8Chars, if_neg (by decide),
            utf8Chars, if_neg (by decide), utf8Chars, if_pos rfl, a4, ih, hc]
          rfl

/-- Escaping loses nothing: the escaped text is read back as the string. -/
theorem QueryUnescape_QueryEscape (s : String) : QueryUnescape (QueryEscape s) = some s := by
  unfold QueryUnescape QueryEscape
  simp only [String.toList, unescapeBytes_escape, utf8Chars_bytes]
  cases s
  rfl

/-- C5: `ToExecutionListQuery` and `ToCronTriggerListQuery` never fail, and
the query string is exactly this text: for each field that is non-zero
(non-empty string, `Limit` other than 0), in the order of the wire names, the
wire name, `=` and the field's value (escaped; the decimal text for `Limit`),
the parameters joined with `&` and preceded by `?`; a zero field contributes
nothing, and when all fields are zero the query string is empty, so that
`List` builds the same pager, hence requests the same URL, as with nil
options.  Escaping leaves letters, digits and `-_.~` as they are, and every
value can be read back from its escaped text. -/
theorem ListQuery_text_holds_exactly_nonzero_fields (client : ServiceClient)
    (eo : executions.ListOpts) (co : crontriggers.ListOpts) :
    (let pieces := List.filterMap id
        [ if eo.Description = "" then none else some ("description=" ++ QueryEscape eo.Description),
          if eo.Limit = 0 then none else some ("limit=" ++ toString eo.Limit),
          if eo.Marker = "" then none else some ("marker=" ++ QueryEscape eo.Marker),
          if eo.SortDir = "" then none else some ("sort_dir=" ++ QueryEscape eo.SortDir),
          if eo.SortKey = "" then none else some ("sort_key=" ++ QueryEscape eo.SortKey),
          if eo.State = "" then none else some ("state=" ++ QueryEscape eo.State),
          if eo.WorkflowID = "" then none else some ("workflow_id=" ++ QueryEscape eo.WorkflowID),
          if eo.WorkflowName = "" then none else some ("workflow_name=" ++ QueryEscape eo.WorkflowName) ];
      eo.ToExecutionListQuery
        = (if pieces = [] then "" else "?" ++ "&".intercalate pieces, none)) ∧
    (let pieces := List.filterMap id
        [ if co.Limit = 0 then none else some ("limit=" ++ toString co.Limit),
          if co.Marker = "" then none else some ("marker=" ++ QueryEscape co.Marker),
          if co.Name = "" then none else some ("name=" ++ QueryEscape co.Name),
          if co.Scope = "" then none else some ("scope=" ++ QueryEscape co.Scope),
          if co.SortDir = "" then none else some ("sort_dir=" ++ QueryEscape co.SortDir),
          if co.SortKey = "" then none else some ("sort_key=" ++ QueryEscape co.SortKey),
          if co.WorkflowID = "" then none else some ("workflow_id=" ++ QueryEscape co.WorkflowID),
          if co.WorkflowName = "" then none else some ("workflow_name=" ++ QueryEscape co.WorkflowName) ];
      co.ToCronTriggerListQuery
        = (if pieces = [] then "" else "?" ++ "&".intercalate pieces, none)) ∧
    executions.ListOpts.ToExecutionListQuery ⟨"", "", "", "", "", "", "", 0⟩ = ("", none) ∧
    crontriggers.ListOpts.ToCronTriggerListQuery ⟨"", "", "", "", "", "", "", 0⟩
      = ("", none) ∧
    executions.List client (some ⟨"", "", "", "", "", "", "", 0⟩)
      = executions.List client none ∧
    crontriggers.List client (some ⟨"", "", "", "", "", "", "", 0⟩)
      = crontriggers.List client none ∧
    (∀ s : String,
      (∀ c ∈ s.toList, c.isAlphanum = true ∨ c = '-' ∨ c = '_' ∨ c = '.' ∨ c = '~') →
      QueryEscape s = s) ∧
    (∀ s : String, QueryUnescape (QueryEscape s) = some s) ∧
    QueryEscape "a b" = "a+b" ∧ QueryEscape "x&y=z" = "x%26y%3Dz" := by
  have k_description : QueryEscape "description" ++ "=" = "description=" := by decide
  have k_limit : QueryEscape "limit" ++ "=" = "limit=" := by decide
  have k_marker : QueryEscape "marker" ++ "=" = "marker=" := by decide
  have k_sort_dir : QueryEscape "sort_dir" ++ "=" = "sort_dir=" := by decide
  have k_sort_key : QueryEscape "sort_key" ++ "=" = "sort_key=" := by decide
  have k_state : QueryEscape "state" ++ "=" = "state=" := by decide
  have k_workflow_id : QueryEscape "workflow_id" ++ "=" = "workflow_id=" := by decide
  have k_workflow_name : QueryEscape "workflow_name" ++ "=" = "workflow_name=" := by decide
  have k_name : QueryEscape "name" ++ "=" = "name=" := by decide
  have k_scope : QueryEscape "scope" ++ "=" = "scope=" := by decide
  have ezero : executions.ListOpts.ToExecutionListQuery ⟨"", "", "", "", "", "", "", 0⟩
      = ("", none) := by decide
  have czero : crontriggers.ListOpts.ToCronTriggerListQuery ⟨"", "", "", "", "", "", "", 0⟩
      = ("", none) := by decide
  refine ⟨?_, ?_, ezero, czero, ?_, ?_, QueryEscape_unreserved, QueryUnescape_QueryEscape,
    by decide, by decide⟩
  · have hopt : ∀ f ∈ eo.fields, f.required = false := by
      intro f hf
      simp only [executions.ListOpts.fields, List.mem_cons, List.mem_singleton,
        List.not_mem_nil, or_false] at hf
      rcases hf with h | h | h | h | h | h | h | h <;> rw [h]
    have s1 := sortByKey_place ⟨"Limit", "limit", .int eo.Limit, false⟩
      []
      []
      []
      "limit" [] [] rfl rfl rfl (by decide) (by decide) rfl
    have s2 := sortByKey_place ⟨"Marker", "marker", .str eo.Marker, false⟩
      [⟨"Limit", "limit", .int eo.Limit, false⟩]
      []
      [⟨"Limit", "limit", .int eo.Limit, false⟩]
      "marker" ["limit"] [] rfl rfl rfl (by decide) (by decide) s1
    have s3 := sortByKey_place ⟨"SortKey", "sort_key", .str eo.SortKey, false⟩
      [⟨"Limit", "limit", .int eo.Limit, false⟩, ⟨"Marker", "marker", .str eo.Marker, false⟩]
      []
      [⟨"Marker", "marker", .str eo.Marker, false⟩, ⟨"Limit", "limit", .int eo.Limit, false⟩]
      "sort_key" ["limit", "marker"] [] rfl rfl rfl (by decide) (by decide) s2
    have s4 := sortByKey_place ⟨"SortDir", "sort_dir", .str eo.SortDir, false⟩
      [⟨"Limit", "limit", .int eo.Limit, false⟩, ⟨"Marker", "marker", .str eo.Marker, false⟩]
      [⟨"SortKey", "sort_key", .str eo.SortKey, false⟩]
      [⟨"SortKey", "sort_key", .str eo.SortKey, false⟩, ⟨"Marker", "marker", .str eo.Marker, false⟩, ⟨"Limit", "limit", .int eo.Limit, false⟩]
      "sort_dir" ["limit", "marker"] ["sort_key"] rfl rfl rfl (by decide) (by decide) s3
    have s5 := sortByKey_place ⟨"State", "state", .str eo.State, false⟩
      [⟨"Limit", "limit", .int eo.Limit, false⟩, ⟨"Marker", "marker", .str eo.Marker, false⟩, ⟨"SortDir", "sort_dir", .str eo.SortDir, false⟩, ⟨"SortKey", "sort_key", .str eo.SortKey, false⟩]
      []
      [⟨"SortDir", "sort_dir", .str eo.SortDir, false⟩, ⟨"SortKey", "sort_key", .str eo.SortKey, false⟩, ⟨"Marker", "marker", .str eo.Marker, false⟩, ⟨"Limit", "limit", .int eo.Limit, false⟩]
      "state" ["limit", "marker", "sort_dir", "sort_key"] [] rfl rfl rfl (by decide) (by decide) s4
    have s6 := sortByKey_place ⟨"Description", "description", .str eo.Description, false⟩
      []
      [⟨"Limit", "limit", .int eo.Limit, false⟩, ⟨"Marker", "marker", .str eo.Marker, false⟩, ⟨"SortDir", "sort_dir", .str eo.SortDir, false⟩, ⟨"SortKey", "sort_key", .str eo.SortKey, false⟩, ⟨"State", "state", .str eo.State, false⟩]
      [⟨"State", "state", .str eo.State, false⟩, ⟨"SortDir", "sort_dir", .str eo.SortDir, false⟩, ⟨"SortKey", "sort_key", .str eo.SortKey, false⟩, ⟨"Marker", "marker", .str eo.Marker, false⟩, ⟨"Limit", "limit", .int eo.Limit, false⟩]
      "description" [] ["limit", "marker", "sort_dir", "sort_key", "state"] rfl rfl rfl (by decide) (by decide) s5
    have s7 := sortByKey_place ⟨"WorkflowID", "workflow_id", .str eo.WorkflowID, false⟩
      [⟨"Description", "description", .str eo.Description, false⟩, ⟨"Limit", "limit", .int eo.Limit, false⟩, ⟨"Marker", "marker", .str eo.Marker, false⟩, ⟨"SortDir", "sort_dir", .str eo.SortDir, false⟩, ⟨"SortKey", "sort_key", .str eo.SortKey, false⟩, ⟨"State", "state", .str eo.State, false⟩]
      []
      [⟨"Description", "description", .str eo.Description, false⟩, ⟨"State", "state", .str eo.State, false⟩, ⟨"SortDir", "sort_dir", .str eo.SortDir, false⟩, ⟨"SortKey", "sort_key", .str eo.SortKey, false⟩, ⟨"Marker", "marker", .str eo.Marker, false⟩, ⟨"Limit", "limit", .int eo.Limit, false⟩]
      "workflow_id" ["description", "limit", "marker", "sort_dir", "sort_key", "state"] [] rfl rfl rfl (by decide) (by decide) s6
    have s8 := sortByKey_place ⟨"WorkflowName", "workflow_name", .str eo.WorkflowName, false⟩
      [⟨"Description", "description", .str eo.Description, false⟩, ⟨"Limit", "limit", .int eo.Limit, false⟩, ⟨"Marker", "marker", .str eo.Marker, false⟩, ⟨"SortDir", "sort_dir", .str eo.SortDir, false⟩, ⟨"SortKey", "sort_key", .str eo.SortKey, false⟩, ⟨"State", "state", .str eo.State, false⟩, ⟨"WorkflowID", "workflow_id", .str eo.WorkflowID, false⟩]
      []
      [⟨"WorkflowID", "workflow_id", .str eo.WorkflowID, false⟩, ⟨"Description", "description", .str eo.Description, false⟩, ⟨"State", "state", .str eo.State, false⟩, ⟨"SortDir", "sort_dir", .str eo.SortDir, false⟩, ⟨"SortKey", "sort_key", .str eo.SortKey, false⟩, ⟨"Marker", "marker", .str eo.Marker, false⟩, ⟨"Limit", "limit", .int eo.Limit, false⟩]
      "workflow_name" ["description", "limit", "marker", "sort_dir", "sort_key", "state", "workflow_id"] [] rfl rfl rfl (by decide) (by decide) s7
    have htext := BuildQueryString_text eo.fields _ hopt s8
    intro pieces
    simp only [executions.ListOpts.ToExecutionListQuery, htext]
    simp only [List.map, List.append, paramText, FieldValue.isZero, FieldValue.render,
      QueryEscape_toString_int, k_description, k_limit, k_marker, k_sort_dir, k_sort_key,
      k_state, k_workflow_id, k_workflow_name, k_name, k_scope, decide_eq_true_eq]
  · have hopt : ∀ f ∈ co.fields, f.required = false := by
      intro f hf
      simp only [crontriggers.ListOpts.fields, List.mem_cons, List.mem_singleton,
        List.not_mem_nil, or_false] at hf
      rcases hf with h | h | h | h | h | h | h | h <;> rw [h]
    have s1 := sortByKey_place ⟨"Limit", "limit", .int co.Limit, false⟩
      []
      []
      []
      "limit" [] [] rfl rfl rfl (by decide) (by decide) rfl
    have s2 := sortByKey_place ⟨"Marker", "marker", .str co.Marker, false⟩
      [⟨"Limit", "limit", .int co.Limit, false⟩]
      []
      [⟨"Limit", "limit", .int co.Limit, false⟩]
      "marker" ["limit"] [] rfl rfl rfl (by decide) (by decide) s1
    have s3 := sortByKey_place ⟨"SortKey", "sort_key", .str co.SortKey, false⟩
      [⟨"Limit", "limit", .int co.Limit, false⟩, ⟨"Marker", "marker", .str co.Marker, false⟩]
      []
      [⟨"Marker", "marker", .str co.Marker, false⟩, ⟨"Limit", "limit", .int co.Limit, false⟩]
      "sort_key" ["limit", "marker"] [] rfl rfl rfl (by decide) (by decide) s2
    have s4 := sortByKey_place ⟨"SortDir", "sort_dir", .str co.SortDir, false⟩
      [⟨"Limit", "limit", .int co.Limit, false⟩, ⟨"Marker", "marker", .str co.Marker, false⟩]
      [⟨"SortKey", "sort_key", .str co.SortKey, false⟩]
      [⟨"SortKey", "sort_key", .str co.SortKey, false⟩, ⟨"Marker", "marker", .str co.Marker, false⟩, ⟨"Limit", "limit", .int co.Limit, false⟩]
      "sort_dir" ["limit", "marker"] ["sort_key"] rfl rfl rfl (by decide) (by decide) s3
    have s5 := sortByKey_place ⟨"Scope", "scope", .str co.Scope, false⟩
      [⟨"Limit", "limit", .int co.Limit, false⟩, ⟨"Marker", "marker", .str co.Marker, false⟩]
      [⟨"SortDir", "sort_dir", .str co.SortDir, false⟩, ⟨"SortKey", "sort_key", .str co.SortKey, false⟩]
      [⟨"SortDir", "sort_dir", .str co.SortDir, false⟩, ⟨"SortKey", "sort_key", .str co.SortKey, false⟩, ⟨"Marker", "marker", .str co.Marker, false⟩, ⟨"Limit", "limit", .int co.Limit, false⟩]
      "scope" ["limit", "marker"] ["sort_dir", "sort_key"] rfl rfl rfl (by decide) (by decide) s4
    have s6 := sortByKey_place ⟨"Name", "name", .str co.Name, false⟩
      [⟨"Limit", "limit", .int co.Limit, false⟩, ⟨"Marker", "marker", .str co.Marker, false⟩]
      [⟨"Scope", "scope", .str co.Scope, false⟩, ⟨"SortDir", "sort_dir", .str co.SortDir, false⟩, ⟨"SortKey", "sort_key", .str co.SortKey, false⟩]
      [⟨"Scope", "scope", .str co.Scope, false⟩, ⟨"SortDir", "sort_dir", .str co.SortDir, false⟩, ⟨"SortKey", "sort_key", .str co.SortKey, false⟩, ⟨"Marker", "marker", .str co.Marker, false⟩, ⟨"Limit", "limit", .int co.Limit, false⟩]
      "name" ["limit", "marker"] ["scope", "sort_dir", "sort_key"] rfl rfl rfl (by decide) (by decide) s5
    have s7 := sortByKey_place ⟨"WorkflowID", "workflow_id", .str co.WorkflowID, false⟩
      [⟨"Limit", "limit", .int co.Limit, false⟩, ⟨"Marker", "marker", .str co.Marker, false⟩, ⟨"Name", "name", .str co.Name, false⟩, ⟨"Scope", "scope", .str co.Scope, false⟩, ⟨"SortDir", "sort_dir", .str co.SortDir, false⟩, ⟨"SortKey", "sort_key", .str co.SortKey, false⟩]
      []
      [⟨"Name", "name", .str co.Name, false⟩, ⟨"Scope", "scope", .str co.Scope, false⟩, ⟨"SortDir", "sort_dir", .str co.SortDir, false⟩, ⟨"SortKey", "sort_key", .str co.SortKey, false⟩, ⟨"Marker", "marker", .str co.Marker, false⟩, ⟨"Limit", "limit", .int co.Limit, false⟩]
      "workflow_id" ["limit", "marker", "name", "scope", "sort_dir", "sort_key"] [] rfl rfl rfl (by decide) (by decide) s6
    have s8 := sortByKey_place ⟨"WorkflowName", "workflow_name", .str co.WorkflowName, false⟩
      [⟨"Limit", "limit", .int co.Limit, false⟩, ⟨"Marker", "marker", .str co.Marker, false⟩, ⟨"Name", "name", .str co.Name, false⟩, ⟨"Scope", "scope", .str co.Scope, false⟩, ⟨"SortDir", "sort_dir", .str co.SortDir, false⟩, ⟨"SortKey", "sort_key", .str co.SortKey, false⟩, ⟨"WorkflowID", "workflow_id", .str co.WorkflowID, false⟩]
      []
      [⟨"WorkflowID", "workflow_id", .str co.WorkflowID, false⟩, ⟨"Name", "name", .str co.Name, false⟩, ⟨"Scope", "scope", .str co.Scope, false⟩, ⟨"SortDir", "sort_dir", .str co.SortDir, false⟩, ⟨"SortKey", "sort_key", .str co.SortKey, false⟩, ⟨"Marker", "marker", .str co.Marker, false⟩, ⟨"Limit", "limit", .int co.Limit, false⟩]
      "workflow_name" ["limit", "marker", "name", "scope", "sort_dir", "sort_key", "workflow_id"] [] rfl rfl rfl (by decide) (by decide) s7
    have htext := BuildQueryString_text co.fields _ hopt s8
    intro pieces
    simp only [crontriggers.ListOpts.ToCronTriggerListQuery, htext]
    simp only [List.map, List.append, paramText, FieldValue.isZero, FieldValue.render,
      QueryEscape_toString_int, k_description, k_limit, k_marker, k_sort_dir, k_sort_key,
      k_state, k_workflow_id, k_workflow_name, k_name, k_scope, decide_eq_true_eq]
  · simp only [executions.List, ezero, String.append_empty]
  · simp only [crontriggers.List, czero, String.append_empty]

/-- Witness of C5 with non-empty query strings: four fields of an executions
`ListOpts` are set, among them a name with a blank, a state with `&` and a
negative limit; three fields of a cron trigger `ListOpts` are set. -/
theorem ListQuery_text_holds_exactly_nonzero_fields_witness :
    executions.ListOpts.ToExecutionListQuery ⟨"a b", "w1", "", "x&", "", "", "", -5⟩
      = ("?limit=-5&state=x%26&workflow_id=w1&workflow_name=a+b", none) ∧
    crontriggers.ListOpts.ToCronTriggerListQuery ⟨"", "w1", "trigger", "", "asc", "", "", 10⟩
      = ("?limit=10&name=trigger&sort_dir=asc&workflow_id=w1", none) ∧
    (executions.List executions.testListClient
        (some ⟨"a b", "w1", "", "x&", "", "", "", -5⟩)).initialURL
      = "http://127.0.0.1/executions?limit=-5&state=x%26&workflow_id=w1&workflow_name=a+b" :=
  ⟨Eq.trans
      (ListQuery_text_holds_exactly_nonzero_fields executions.testListClient
        ⟨"a b", "w1", "", "x&", "", "", "", -5⟩
        ⟨"", "w1", "trigger", "", "asc", "", "", 10⟩).1 (by decide),
   Eq.trans
      (ListQuery_text_holds_exactly_nonzero_fields executions.testListClient
        ⟨"a b", "w1", "", "x&", "", "", "", -5⟩
        ⟨"", "w1", "trigger", "", "asc", "", "", 10⟩).2.1 (by decide),
   by decide⟩

/-! ### Iteration over pages -/

/-- Following a chain of linked non-empty pages on which the visitor continues
takes one round of the loop per page and leaves the loop at the URL the last
link points to. -/
theorem eachPageLoop_follow {σ : Type} (kind : PageKind) (client : ServiceClient)
    (handler : Handler σ) (pre : List JSON) :
    ∀ (url : String) (it : Iteration σ) (fuel : Nat),
      LinkedPages client kind url pre → Continues handler it.hstate pre →
      eachPageLoop kind client handler (pre.length + fuel) url it =
        eachPageLoop kind client handler fuel (lastURL kind url pre)
          { requests := it.requests ++ chainURLs kind url pre
            visited := it.visited ++ pre
            hstate := stateAfter handler it.hstate pre } := by
  induction pre with
  | nil =>
    intro url it fuel _ _
    simp [lastURL, chainURLs, stateAfter]
  | cons b rest ih =>
    intro url it fuel hl hc
    obtain ⟨hget, hbody, hempty, hnerr, hnext, hrest⟩ := hl
    obtain ⟨hcont, hcrest⟩ := hc
    have hfuel : (b :: rest).length + fuel = (rest.length + fuel) + 1 := by
      simp [List.length_cons]; omega
    rcases hres : (client.Get url).1 with ⟨body, err⟩
    rw [hres] at hget hbody
    simp only at hget hbody
    subst hget hbody
    rcases hh : handler it.hstate body with ⟨s, ok, herr⟩
    rw [hh] at hcont hcrest
    simp only [Prod.mk.injEq] at hcont
    obtain ⟨hok, hherr⟩ := hcont
    subst hok hherr
    rcases hn : kind.NextPageURL body with ⟨next, nerr⟩
    rw [hn] at hnerr hnext hrest
    simp only at hnerr hnext hrest
    subst hnerr
    rw [hfuel, eachPageLoop]
    simp only [hres, hempty, hh, hn, hnext, if_false]
    rw [ih next _ fuel hrest hcrest]
    simp [lastURL, chainURLs, stateAfter, hh, hn, List.append_assoc]

/-- A visitor that always asks to continue does so along any list of pages. -/
theorem Continues_of_always {σ : Type} (handler : Handler σ)
    (h : ∀ s b, (handler s b).2 = (true, none)) (pages : List JSON) :
    ∀ s, Continues handler s pages := by
  induction pages with
  | nil => intro s; trivial
  | cons b rest ih => intro s; exact ⟨h s b, ih _⟩

/-- `List` never fails to build its pager: no field of `ListOpts` is required. -/
theorem executions_List_Err (client : ServiceClient) (opts : Option executions.ListOpts) :
    (executions.List client opts).Err = none ∧ (executions.List client opts).client = client := by
  cases opts with
  | none => exact ⟨rfl, rfl⟩
  | some o =>
    have hopt : ∀ f ∈ o.fields, f.required = false := by
      intro f hf
      simp only [executions.ListOpts.fields, List.mem_cons, List.mem_singleton,
        List.not_mem_nil, or_false] at hf
      rcases hf with h | h | h | h | h | h | h | h <;> rw [h]
    simp [executions.List, executions.ListOpts.ToExecutionListQuery, BuildQueryString,
      buildValues_of_optional o.fields hopt]

/-- The chain of URLs has one URL per page. -/
theorem chainURLs_length (kind : PageKind) (pages : List JSON) :
    ∀ url, (chainURLs kind url pages).length = pages.length := by
  induction pages with
  | nil => intro url; rfl
  | cons b rest ih => intro url; simp [chainURLs, ih]

/-- C2: let `pages` be non-empty pages that the server hands out from the list
URL on by following each page's next link, let the last link lead to a page
`e` whose entity list is empty (with or without a next link of its own), and
let the visitor ask to continue on every page it is handed.  Then with fuel
for one more round than there are pages, `EachPage` returns without error,
has requested the URL of each page and then that of `e` (one GET each, in
order), and has handed the visitor exactly `pages`, in order, and not `e`. -/
theorem EachPage_visits_exactly_nonempty_pages {σ : Type} (client : ServiceClient)
    (opts : Option executions.ListOpts) (handler : Handler σ) (s : σ)
    (pages : List JSON) (e : JSON)
    (hlinked : LinkedPages client executions.ExecutionPage
      (executions.List client opts).initialURL pages)
    (hgetErr : (client.Get (lastURL executions.ExecutionPage
      (executions.List client opts).initialURL pages)).1.Err = none)
    (hgetBody : (client.Get (lastURL executions.ExecutionPage
      (executions.List client opts).initialURL pages)).1.Body = e)
    (hempty : executions.ExtractExecutions e = ([], none))
    (hcont : Continues handler s pages)
    (fuel : Nat) (hfuel : pages.length < fuel) :
    executions.EachPage client opts handler s fuel =
      some (none,
        { requests := chainURLs executions.ExecutionPage
            (executions.List client opts).initialURL pages ++
            [lastURL executions.ExecutionPage (executions.List client opts).initialURL pages]
          visited := pages
          hstate := stateAfter handler s pages }) ∧
    (chainURLs executions.ExecutionPage (executions.List client opts).initialURL pages ++
      [lastURL executions.ExecutionPage (executions.List client opts).initialURL pages]).length
      = pages.length + 1 := by
  refine ⟨?_, by simp [chainURLs_length]⟩
  obtain ⟨m, rfl⟩ : ∃ m, fuel = pages.length + (m + 1) := ⟨fuel - pages.length - 1, by omega⟩
  obtain ⟨herr, hclient⟩ := executions_List_Err client opts
  rcases hres : (client.Get (lastURL executions.ExecutionPage
      (executions.List client opts).initialURL pages)).1 with ⟨body, err⟩
  rw [hres] at hgetErr hgetBody
  simp only at hgetErr hgetBody
  subst hgetErr hgetBody
  have hE : executions.ExecutionPage.IsEmpty body = (true, none) := by
    simp [executions.ExecutionPage, executions.IsEmpty, hempty]
  simp only [executions.EachPage, Pager.EachPage, herr, hclient]
  rw [eachPageLoop_follow executions.ExecutionPage client handler pages _ _ (m + 1) hlinked hcont,
    eachPageLoop]
  simp [hres, hE]

/-- Witness of C2, the scenario of `TestListExecutions`: page 1 holds one
execution and a next link with `marker=1`, page 2 is empty; two GETs are
issued, the visitor runs once (its counter ends at 1) on the page with one
entity. -/
theorem EachPage_visits_exactly_nonempty_pages_witness :
    (executions.ExtractExecutions executions.testPage1).1.length = 1 ∧
    executions.ExtractExecutions executions.testPage2 = ([], none) ∧
    executions.EachPage executions.testListClient none executions.testHandler 0 2 =
      some (none,
        { requests := ["http://127.0.0.1/executions", "http://127.0.0.1/executions?marker=1"]
          visited := [executions.testPage1]
          hstate := 1 }) :=
  ⟨by decide, by decide,
   (EachPage_visits_exactly_nonempty_pages executions.testListClient none
      executions.testHandler 0 [executions.testPage1] executions.testPage2
      ⟨rfl, rfl, by decide, by decide, by decide, trivial⟩ rfl rfl (by decide)
      ⟨by decide, trivial⟩ 2 (by decide)).1⟩

/-- C6: let the first `k - 1` pages `pre` be non-empty linked pages on which the
visitor continues, and let page `k`, the page `b` that the last link leads to,
be non-empty; if the visitor asks to stop on `b`, then `EachPage` returns
without error having issued exactly `k` GETs (the URLs of `pre` and of `b`,
none for page `k + 1`) and having run the visitor exactly `k` times, whatever
next link `b` carries. -/
theorem EachPage_stop_issues_no_further_request {σ : Type} (client : ServiceClient)
    (opts : Option executions.ListOpts) (handler : Handler σ) (s : σ)
    (pre : List JSON) (b : JSON)
    (hlinked : LinkedPages client executions.ExecutionPage
      (executions.List client opts).initialURL pre)
    (hcont : Continues handler s pre)
    (hgetErr : (client.Get (lastURL executions.ExecutionPage
      (executions.List client opts).initialURL pre)).1.Err = none)
    (hgetBody : (client.Get (lastURL executions.ExecutionPage
      (executions.List client opts).initialURL pre)).1.Body = b)
    (hnonempty : executions.IsEmpty b = (false, none))
    (hstop : (handler (stateAfter handler s pre) b).2 = (false, none))
    (fuel : Nat) (hfuel : pre.length < fuel) :
    ∃ it : Iteration σ,
      executions.EachPage client opts handler s fuel = some (none, it) ∧
      it.requests = chainURLs executions.ExecutionPage
          (executions.List client opts).initialURL pre ++
          [lastURL executions.ExecutionPage (executions.List client opts).initialURL pre] ∧
      it.visited = pre ++ [b] ∧
      it.requests.length = pre.length + 1 ∧
      it.visited.length = pre.length + 1 := by
  obtain ⟨m, rfl⟩ : ∃ m, fuel = pre.length + (m + 1) := ⟨fuel - pre.length - 1, by omega⟩
  obtain ⟨herr, hclient⟩ := executions_List_Err client opts
  rcases hres : (client.Get (lastURL executions.ExecutionPage
      (executions.List client opts).initialURL pre)).1 with ⟨body, err⟩
  rw [hres] at hgetErr hgetBody
  simp only at hgetErr hgetBody
  subst hgetErr hgetBody
  rcases hh : handler (stateAfter handler s pre) body with ⟨s1, ok, herr1⟩
  rw [hh] at hstop
  simp only [Prod.mk.injEq] at hstop
  obtain ⟨hok, hherr⟩ := hstop
  subst hok hherr
  have hE : executions.ExecutionPage.IsEmpty body = (false, none) := hnonempty
  refine ⟨{ requests := chainURLs executions.ExecutionPage
              (executions.List client opts).initialURL pre ++
              [lastURL executions.ExecutionPage (executions.List client opts).initialURL pre]
            visited := pre ++ [body]
            hstate := s1 }, ?_, rfl, rfl, by simp [chainURLs_length], by simp⟩
  simp only [executions.EachPage, Pager.EachPage, herr, hclient]
  rw [eachPageLoop_follow executions.ExecutionPage client handler pre _ _ (m + 1) hlinked hcont,
    eachPageLoop]
  simp [hres, hE, hh]

/-- Witness of C6 on the server of `TestListExecutions` with a visitor that
stops on page 1, which carries a next link: one GET, one visit. -/
theorem EachPage_stop_issues_no_further_request_witness :
    (executions.NextPageURL executions.testPage1).1 = "http://127.0.0.1/executions?marker=1" ∧
    ∃ it : Iteration Nat,
      executions.EachPage executions.testListClient none executions.stopHandler 0 5
        = some (none, it) ∧
      it.requests = chainURLs executions.ExecutionPage
          (executions.List executions.testListClient none).initialURL [] ++
          [lastURL executions.ExecutionPage
            (executions.List executions.testListClient none).initialURL []] ∧
      it.visited = [] ++ [executions.testPage1] ∧
      it.requests.length = ([] : List JSON).length + 1 ∧
      it.visited.length = ([] : List JSON).length + 1 :=
  ⟨by decide,
   EachPage_stop_issues_no_further_request executions.testListClient none
     executions.stopHandler 0 [] executions.testPage1 trivial trivial rfl rfl (by decide) rfl
     5 (by decide)⟩

/-- C7 as stated fails: the only page served is empty and its next link is a
number, so `NextPageURL` returns an error on page 1, the first page that fails
to decode; yet the iteration ends on the empty page before the link is read
and returns no error. -/
theorem EachPage_empty_page_hides_link_error :
    (executions.constClient executions.emptyPageBadNext).Get
        (executions.List (executions.constClient executions.emptyPageBadNext) none).initialURL
      = ({ Body := executions.emptyPageBadNext, Err := none },
         [{ method := .GET, url := "http://127.0.0.1/executions", body := none }]) ∧
    executions.ExtractExecutions executions.emptyPageBadNext = ([], none) ∧
    executions.NextPageURL executions.emptyPageBadNext = ("", some (Error.decode "next")) ∧
    executions.EachPage (executions.constClient executions.emptyPageBadNext) none
        executions.testHandler 0 1
      = some (none, { requests := ["http://127.0.0.1/executions"], visited := [], hstate := 0 }) ∧
    executions.EachPage (executions.constClient executions.emptyPageBadNext) none
        executions.testHandler 0 10
      = some (none, { requests := ["http://127.0.0.1/executions"], visited := [], hstate := 0 }) := by
  refine ⟨rfl, by decide, by decide, rfl, rfl⟩

/-- C7, amended: let pages 1 to `j - 1` (`pre`) be non-empty linked pages on
which the visitor continues, and let page `j`, at the URL the last link leads
to, be the first that fails with `err`, in one of three ways: its request
fails; or its entity list fails to decode (`ExtractExecutions`, hence
`IsEmpty`, returns `err`); or its entity list decodes and is not empty, the
visitor continues on it, and its next link fails to decode (`NextPageURL`
returns `err`).  Then `EachPage` returns `err`, has requested exactly the URLs
of pages 1 to `j` and none after, and has handed the visitor the pages
1 to `j - 1` in order, followed by page `j` itself when page `j` was fetched
and is not empty (the third case), and by nothing otherwise (the first two
cases). -/
theorem EachPage_error_aborts_after_delivering {σ : Type} (client : ServiceClient)
    (opts : Option executions.ListOpts) (handler : Handler σ) (s : σ)
    (pre : List JSON) (err : Error)
    (hlinked : LinkedPages client executions.ExecutionPage
      (executions.List client opts).initialURL pre)
    (hcont : Continues handler s pre)
    (hfail :
      (client.Get (lastURL executions.ExecutionPage
        (executions.List client opts).initialURL pre)).1.Err = some err ∨
      ((client.Get (lastURL executions.ExecutionPage
        (executions.List client opts).initialURL pre)).1.Err = none ∧
       (executions.ExtractExecutions (client.Get (lastURL executions.ExecutionPage
        (executions.List client opts).initialURL pre)).1.Body).2 = some err) ∨
      ((client.Get (lastURL executions.ExecutionPage
        (executions.List client opts).initialURL pre)).1.Err = none ∧
       executions.IsEmpty (client.Get (lastURL executions.ExecutionPage
        (executions.List client opts).initialURL pre)).1.Body = (false, none) ∧
       (handler (stateAfter handler s pre) (client.Get (lastURL executions.ExecutionPage
        (executions.List client opts).initialURL pre)).1.Body).2 = (true, none) ∧
       (executions.NextPageURL (client.Get (lastURL executions.ExecutionPage
        (executions.List client opts).initialURL pre)).1.Body).2 = some err))
    (fuel : Nat) (hfuel : pre.length < fuel) :
    ∃ it : Iteration σ,
      executions.EachPage client opts handler s fuel = some (some err, it) ∧
      it.requests = chainURLs executions.ExecutionPage
          (executions.List client opts).initialURL pre ++
          [lastURL executions.ExecutionPage (executions.List client opts).initialURL pre] ∧
      it.requests.length = pre.length + 1 ∧
      ((client.Get (lastURL executions.ExecutionPage
          (executions.List client opts).initialURL pre)).1.Err = none ∧
        executions.IsEmpty (client.Get (lastURL executions.ExecutionPage
          (executions.List client opts).initialURL pre)).1.Body = (false, none) →
        it.visited = pre ++ [(client.Get (lastURL executions.ExecutionPage
          (executions.List client opts).initialURL pre)).1.Body]) ∧
      (¬ ((client.Get (lastURL executions.ExecutionPage
          (executions.List client opts).initialURL pre)).1.Err = none ∧
        executions.IsEmpty (client.Get (lastURL executions.ExecutionPage
          (executions.List client opts).initialURL pre)).1.Body = (false, none)) →
        it.visited = pre) := by
  obtain ⟨m, rfl⟩ : ∃ m, fuel = pre.length + (m + 1) := ⟨fuel - pre.length - 1, by omega⟩
  obtain ⟨herr, hclient⟩ := executions_List_Err client opts
  have hloop := eachPageLoop_follow executions.ExecutionPage client handler pre
    (executions.List client opts).initialURL
    { requests := [], visited := [], hstate := s } (m + 1) hlinked hcont
  rcases hres : (client.Get (lastURL executions.ExecutionPage
      (executions.List client opts).initialURL pre)).1 with ⟨body, rerr⟩
  rw [hres] at hfail
  simp only at hfail ⊢
  rcases hfail with h1 | ⟨h1, h2⟩ | ⟨h1, h2, h3, h4⟩
  · subst h1
    refine ⟨{ requests := chainURLs executions.ExecutionPage
                (executions.List client opts).initialURL pre ++
                [lastURL executions.ExecutionPage (executions.List client opts).initialURL pre]
              visited := pre
              hstate := stateAfter handler s pre }, ?_, rfl, by simp [chainURLs_length],
            fun hc => absurd hc.1 (by simp), fun _ => rfl⟩
    simp only [executions.EachPage, Pager.EachPage, herr, hclient]
    rw [hloop, eachPageLoop]
    simp [hres]
  · subst h1
    rcases hE : executions.ExecutionPage.IsEmpty body with ⟨empty, eerr⟩
    have heerr : eerr = some err := by
      have : (executions.ExecutionPage.IsEmpty body).2 = some err := h2
      rw [hE] at this
      exact this
    subst heerr
    have hne : executions.IsEmpty body ≠ (false, none) := by
      have hE2 : executions.IsEmpty body = (empty, some err) := hE
      rw [hE2]
      simp
    refine ⟨{ requests := chainURLs executions.ExecutionPage
                (executions.List client opts).initialURL pre ++
                [lastURL executions.ExecutionPage (executions.List client opts).initialURL pre]
              visited := pre
              hstate := stateAfter handler s pre }, ?_, rfl, by simp [chainURLs_length],
            fun hc => absurd hc.2 hne, fun _ => rfl⟩
    simp only [executions.EachPage, Pager.EachPage, herr, hclient]
    rw [hloop, eachPageLoop]
    simp [hres, hE]
  · subst h1
    have hE : executions.ExecutionPage.IsEmpty body = (false, none) := h2
    rcases hh : handler (stateAfter handler s pre) body with ⟨s1, ok, herr1⟩
    rw [hh] at h3
    simp only [Prod.mk.injEq] at h3
    obtain ⟨hok, hherr⟩ := h3
    subst hok hherr
    rcases hn : executions.ExecutionPage.NextPageURL body with ⟨next, nerr⟩
    have hnerr : nerr = some err := by
      have : (executions.ExecutionPage.NextPageURL body).2 = some err := h4
      rw [hn] at this
      exact this
    subst hnerr
    refine ⟨{ requests := chainURLs executions.ExecutionPage
                (executions.List client opts).initialURL pre ++
                [lastURL executions.ExecutionPage (executions.List client opts).initialURL pre]
              visited := pre ++ [body]
              hstate := s1 }, ?_, rfl, by simp [chainURLs_length], fun _ => rfl,
            fun hc => absurd ⟨rfl, h2⟩ hc⟩
    simp only [executions.EachPage, Pager.EachPage, herr, hclient]
    rw [hloop, eachPageLoop]
    simp [hres, hE, hh, hn]

/-- Witness of the amended C7: the only page served holds one execution and a
next link that is a number; the visitor of `TestListExecutions` is handed the
page and continues, then the iteration returns the decode error of the link
after its one GET, the page having been delivered. -/
theorem EachPage_error_aborts_after_delivering_witness :
    executions.NextPageURL executions.fullPageBadNext = ("", some (Error.decode "next")) ∧
    executions.EachPage (executions.constClient executions.fullPageBadNext) none
        executions.testHandler 0 3
      = some (some (Error.decode "next"),
          { requests := ["http://127.0.0.1/executions"]
            visited := [executions.fullPageBadNext]
            hstate := 1 }) ∧
    ∃ it : Iteration Nat,
      executions.EachPage (executions.constClient executions.fullPageBadNext) none
        executions.testHandler 0 3 = some (some (Error.decode "next"), it) ∧
      it.visited = [] ++ [(ServiceClient.Get
          (executions.constClient executions.fullPageBadNext)
          (lastURL executions.ExecutionPage
            (executions.List (executions.constClient executions.fullPageBadNext)
              none).initialURL [])).1.Body] :=
  ⟨by decide, rfl,
   (EachPage_error_aborts_after_delivering
     (executions.constClient executions.fullPageBadNext) none
     executions.testHandler 0 [] (Error.decode "next") trivial trivial
     (Or.inr (Or.inr ⟨by decide, by decide, by decide, by decide⟩))
     3 (by decide)).imp fun _ h => ⟨h.1, h.2.2.2.1 ⟨by decide, by decide⟩⟩⟩

/-! ### Create and Extract -/

/-- With a server that echoes the encoded field set as a bare object with an
id added, the round trip through `Create` and `Extract` gives back the
caller's fields, the omitted ones as empty strings, and the server's id. -/
theorem Create_Extract_bare_echo (opts : executions.CreateOpts) (id : String)
    (h : opts.WorkflowID ≠ "") :
    executions.commonResult.Extract
        (executions.Create (executions.echoClient false id) opts).1 =
      ({ ID := id, Description := opts.Description, Input := opts.Input, Output := "",
         Params := opts.Params, ProjectID := "", State := "",
         WorkflowID := opts.WorkflowID, WorkflowName := "",
         WorkflowNamespace := opts.WorkflowNamespace }, none) := by
  have hmap : opts.ToExecutionCreateMap = .ok [("execution", .obj (marshalFields opts.fields))] := by
    simp [executions.CreateOpts.ToExecutionCreateMap, BuildRequestBody,
      executions.CreateOpts.fields, validateRequired, FieldValue.isZero, h]
  simp only [executions.Create, hmap, ServiceClient.Post, ServiceClient.Request,
    executions.echoClient]
  obtain ⟨f1, f2, f3, f4, f5, f6, f7, f8, f9, f10, f11, f12, f13, f14, f15, f16, f17⟩ :=
    foldKey_wire_names
  by_cases h1 : opts.WorkflowNamespace = "" <;> by_cases h2 : opts.Input = "" <;>
    by_cases h3 : opts.Params = "" <;> by_cases h4 : opts.Description = "" <;>
    simp [executions.commonResult.Extract, executions.unmarshalExecution, structMembers,
      scanString, firstStringMismatch, executions.executionTags, firstError,
      executions.CreateOpts.fields, marshalFields, FieldValue.isZero, FieldValue.toJSON,
      h1, h2, h3, h4, f1, f2, f3, f4, f5, f6, f7, f8, f9, f10, f11, f12, f13, f14,
      f15, f16, f17]

/-- C8 (fails on the code): with the options of `TestCreateExecution` and a
server that echoes the encoded field set, id "1" added, under the envelope key
"execution" of the request (as the response of that test is), `Create` issues
its one POST and `Extract` returns the zero `Execution` without error: the
`WorkflowID` "w1", the `Input`, `Params` and `Description` of the options and
the id are all lost.  The same holds on the server of the test itself. -/
theorem Create_Extract_enveloped_echo_is_empty :
    executions.testCreateOpts.ToExecutionCreateMap =
      .ok [("execution", .obj [("workflow_id", .str "w1"), ("input", .str "{}"),
        ("params", .str "{}"), ("description", .str "this is a description")])] ∧
    (executions.Create (executions.echoClient true "1") executions.testCreateOpts).1.Body =
      .obj [("execution", .obj [("id", .str "1"), ("workflow_id", .str "w1"),
        ("input", .str "{}"), ("params", .str "{}"),
        ("description", .str "this is a description")])] ∧
    (executions.Create (executions.echoClient true "1") executions.testCreateOpts).1.Err = none ∧
    executions.commonResult.Extract
        (executions.Create (executions.echoClient true "1") executions.testCreateOpts).1
      = (executions.emptyExecution, none) ∧
    (executions.commonResult.Extract
        (executions.Create (executions.echoClient true "1") executions.testCreateOpts).1).1.WorkflowID
      ≠ executions.testCreateOpts.WorkflowID ∧
    (executions.commonResult.Extract
        (executions.Create (executions.echoClient true "1") executions.testCreateOpts).1).1.ID
      ≠ "1" ∧
    executions.commonResult.Extract
        (executions.Create executions.testCreateClient executions.testCreateOpts).1
      = (executions.emptyExecution, none) := by
  refine ⟨rfl, rfl, rfl, by decide, by decide, by decide, by decide⟩

/-! ### Workflows -/

/-- Members whose keys do not match the tag looked for do not change a string
field. -/
theorem scanString_append_of_not_mem (key : String) (extra : List (String × JSON))
    (hextra : ∀ kv ∈ extra, foldKey kv.1 ≠ key) :
    ∀ (fields : List (String × JSON)) (cur : String),
      scanString key (fields ++ extra) cur = scanString key fields cur := by
  have hx : ∀ cur, scanString key extra cur = cur := by
    induction extra with
    | nil => intro cur; rfl
    | cons kv rest ih =>
      intro cur
      obtain ⟨k, v⟩ := kv
      have hk : foldKey k ≠ key := hextra (k, v) (List.mem_cons_self _ _)
      simp [scanString, hk, ih (fun kv hkv => hextra kv (List.mem_cons_of_mem _ hkv))]
  intro fields
  induction fields with
  | nil => intro cur; simpa using hx cur
  | cons kv rest ih =>
    intro cur
    obtain ⟨k, v⟩ := kv
    by_cases hk : foldKey k = key
    · cases v <;> simp [scanString, hk, ih]
    · simp [scanString, hk, ih]

/-- Members whose keys match none of the tags cause no mismatch. -/
theorem firstStringMismatch_append_of_not_mem (tags : List String)
    (extra : List (String × JSON)) (hextra : ∀ kv ∈ extra, foldKey kv.1 ∉ tags) :
    ∀ fields : List (String × JSON),
      firstStringMismatch tags (fields ++ extra) = firstStringMismatch tags fields := by
  have hx : firstStringMismatch tags extra = none := by
    induction extra with
    | nil => rfl
    | cons kv rest ih =>
      obtain ⟨k, v⟩ := kv
      have hk : foldKey k ∉ tags := hextra (k, v) (List.mem_cons_self _ _)
      simp [firstStringMismatch, hk, ih (fun kv hkv => hextra kv (List.mem_cons_of_mem _ hkv))]
  intro fields
  induction fields with
  | nil => simpa using hx
  | cons kv rest ih =>
    obtain ⟨k, v⟩ := kv
    by_cases hk : foldKey k ∈ tags
    · cases v <;> simp [firstStringMismatch, hk, ih]
    · simp [firstStringMismatch, hk, ih]

/-- The object of a workflow record, followed by unknown members, decodes to
the record without error. -/
theorem unmarshalWorkflow_members (w : workflows.Workflow) (extra : List (String × JSON))
    (hextra : ∀ kv ∈ extra, foldKey kv.1 ∉ workflows.workflowTags) :
    workflows.unmarshalWorkflow (.obj (workflows.workflowMembers w ++ extra)) = (w, none) := by
  have hne : ∀ key ∈ workflows.workflowTags, ∀ kv ∈ extra, foldKey kv.1 ≠ key :=
    fun key hkey kv hkv h => hextra kv hkv (h ▸ hkey)
  obtain ⟨f1, f2, f3, f4, f5, f6, f7, f8, f9, f10, f11, f12, f13, f14, f15, f16, f17⟩ :=
    foldKey_wire_names
  simp only [workflows.unmarshalWorkflow, structMembers,
    firstStringMismatch_append_of_not_mem _ extra hextra,
    scanString_append_of_not_mem "id" extra (hne _ (by decide)),
    scanString_append_of_not_mem "definition" extra (hne _ (by decide)),
    scanString_append_of_not_mem "name" extra (hne _ (by decide)),
    scanString_append_of_not_mem "namespace" extra (hne _ (by decide)),
    scanString_append_of_not_mem "input" extra (hne _ (by decide)),
    scanString_append_of_not_mem "project_id" extra (hne _ (by decide)),
    scanString_append_of_not_mem "scope" extra (hne _ (by decide))]
  simp [workflows.workflowMembers, scanString, firstStringMismatch, workflows.workflowTags,
    firstError, f1, f2, f3, f4, f5, f6, f7, f8, f9, f10, f11, f12, f13, f14,
    f15, f16, f17]

/-- C9 (fails on the code): on the bare workflow object that the server of
`TestCreateWorkflow` answers with, `Extract` on the `CreateResult` returns an
empty list and no error, not the workflow of the object, although the sibling
`commonResult.Extract` decodes that same body to the workflow the test
expects. -/
theorem CreateResult_Extract_bare_body_is_empty :
    workflows.CreateResult.Extract { Body := workflows.testCreateBody, Err := none }
      = ([], none) ∧
    workflows.commonResult.Extract { Body := workflows.testCreateBody, Err := none }
      = (workflows.testExpected, none) := by
  refine ⟨by decide, by decide⟩

/-- Members whose keys do not match the tag leave a slice field as it is. -/
theorem scanArray_of_not_mem {α : Type} (key : String) (decode : JSON → α × Option Error)
    (fields : List (String × JSON)) (hfields : ∀ kv ∈ fields, foldKey kv.1 ≠ key) :
    ∀ acc, scanArray key decode fields acc = acc := by
  induction fields with
  | nil => intro acc; rfl
  | cons kv rest ih =>
    intro acc
    obtain ⟨k, v⟩ := kv
    have hk : foldKey k ≠ key := hfields (k, v) (List.mem_cons_self _ _)
    simp [scanArray, hk, ih (fun kv hkv => hfields kv (List.mem_cons_of_mem _ hkv))]

/-- Scanning the members of an object can be done in two parts. -/
theorem scanArray_append {α : Type} (key : String) (decode : JSON → α × Option Error)
    (front back : List (String × JSON)) :
    ∀ acc, scanArray key decode (front ++ back) acc
      = scanArray key decode back (scanArray key decode front acc) := by
  induction front with
  | nil => intro acc; rfl
  | cons kv rest ih =>
    intro acc
    obtain ⟨k, v⟩ := kv
    by_cases hk : foldKey k = key
    · cases v <;> simp [scanArray, hk, ih]
    · simp [scanArray, hk, ih]

/-- An array of workflow objects, each possibly with unknown members, decodes
element by element to the records. -/
theorem decodeArray_workflows (items : List (workflows.Workflow × List (String × JSON)))
    (hitems : ∀ it ∈ items, ∀ kv ∈ it.2, foldKey kv.1 ∉ workflows.workflowTags) :
    decodeArray workflows.unmarshalWorkflow
        (items.map fun it => .obj (workflows.workflowMembers it.1 ++ it.2))
      = (items.map (·.1), none) := by
  induction items with
  | nil => rfl
  | cons it rest ih =>
    have hrest := ih (fun x hx => hitems x (List.mem_cons_of_mem _ hx))
    have hit := unmarshalWorkflow_members it.1 it.2 (hitems it (List.mem_cons_self _ _))
    simp [decodeArray, hrest, hit, firstError]

/-- C10: when the body of a workflow Create response is an object that holds
under "workflows" an array of `n` workflow objects (each with its seven fields
and any members unknown to `Workflow` besides, the object itself with any other
members besides; a member is unknown when its key matches no wire name, letter
case ignored), `Extract` on the `CreateResult` returns no error and the list of
the `n` workflows described by the objects, in the order of the array. -/
theorem CreateResult_Extract_returns_listed_workflows
    (items : List (workflows.Workflow × List (String × JSON)))
    (front back : List (String × JSON))
    (hitems : ∀ it ∈ items, ∀ kv ∈ it.2, foldKey kv.1 ∉ workflows.workflowTags)
    (hfront : ∀ kv ∈ front, foldKey kv.1 ≠ "workflows")
    (hback : ∀ kv ∈ back, foldKey kv.1 ≠ "workflows") :
    workflows.CreateResult.Extract
        { Body := .obj (front ++
            ("workflows", .arr (items.map fun it =>
              .obj (workflows.workflowMembers it.1 ++ it.2))) :: back)
          Err := none }
      = (items.map (·.1), none) ∧
    (items.map (·.1)).length = items.length := by
  refine ⟨?_, by simp⟩
  simp only [workflows.CreateResult.Extract, structMembers, scanArray_append,
    scanArray_of_not_mem "workflows" workflows.unmarshalWorkflow front hfront]
  simp [scanArray, decodeArray_workflows items hitems, foldKey_wire_names.2.2.2.2.2.2.2.2.2.2.2.2.2.2.1,
    scanArray_of_not_mem "workflows" workflows.unmarshalWorkflow back hback, firstError]

/-- Witness of C10: one created workflow, the object of `TestCreateWorkflow`
with its two timestamps, listed under "workflows"; the list returned has
length 1. -/
theorem CreateResult_Extract_returns_listed_workflows_witness :
    workflows.CreateResult.Extract
        { Body := .obj ([] ++
            ("workflows", .arr ([(workflows.testExpected,
                [("created_at", JSON.str "1970-01-01T00:00:00.000000"),
                 ("updated_at", JSON.str "1970-01-01T00:00:00.000000")])].map fun it =>
              .obj (workflows.workflowMembers it.1 ++ it.2))) :: [])
          Err := none }
      = ([(workflows.testExpected,
            [("created_at", JSON.str "1970-01-01T00:00:00.000000"),
             ("updated_at", JSON.str "1970-01-01T00:00:00.000000")])].map (·.1), none) ∧
    ([(workflows.testExpected,
        [("created_at", JSON.str "1970-01-01T00:00:00.000000"),
         ("updated_at", JSON.str "1970-01-01T00:00:00.000000")])].map (·.1)).length
      = [(workflows.testExpected,
          [("created_at", JSON.str "1970-01-01T00:00:00.000000"),
           ("updated_at", JSON.str "1970-01-01T00:00:00.000000")])].length :=
  CreateResult_Extract_returns_listed_workflows
    [(workflows.testExpected,
      [("created_at", JSON.str "1970-01-01T00:00:00.000000"),
       ("updated_at", JSON.str "1970-01-01T00:00:00.000000")])] [] []
    (by
      intro it hit kv hkv
      simp only [List.mem_singleton] at hit
      subst hit
      simp only [List.mem_cons, List.mem_singleton, List.not_mem_nil, or_false] at hkv
      rcases hkv with h | h <;> subst h <;> decide)
    (by simp) (by simp)

/-! ### Unknown members -/

/-- A member whose key does not match the tag, wherever it stands in the
object, does not change a string field. -/
theorem scanString_insert_of_ne (key k : String) (v : JSON) (back : List (String × JSON))
    (hk : foldKey k ≠ key) :
    ∀ (front : List (String × JSON)) (cur : String),
      scanString key (front ++ (k, v) :: back) cur = scanString key (front ++ back) cur := by
  intro front
  induction front with
  | nil => intro cur; simp [scanString, hk]
  | cons kv rest ih =>
    intro cur
    obtain ⟨k1, v1⟩ := kv
    by_cases h1 : foldKey k1 = key
    · cases v1 <;> simp [scanString, h1, ih]
    · simp [scanString, h1, ih]

/-- A member whose key matches none of the tags, wherever it stands in the
object, causes no mismatch and hides none. -/
theorem firstStringMismatch_insert_of_not_mem (tags : List String) (k : String) (v : JSON)
    (back : List (String × JSON)) (hk : foldKey k ∉ tags) :
    ∀ front : List (String × JSON),
      firstStringMismatch tags (front ++ (k, v) :: back)
        = firstStringMismatch tags (front ++ back) := by
  intro front
  induction front with
  | nil => simp [firstStringMismatch, hk]
  | cons kv rest ih =>
    obtain ⟨k1, v1⟩ := kv
    by_cases h1 : foldKey k1 ∈ tags
    · cases v1 <;> simp [firstStringMismatch, h1, ih]
    · simp [firstStringMismatch, h1, ih]

/-- An execution object decodes the same with and without a member that
`Execution` has no field for. -/
theorem unmarshalExecution_insert (front back : List (String × JSON)) (k : String) (v : JSON)
    (hk : foldKey k ∉ executions.executionTags) :
    executions.unmarshalExecution (.obj (front ++ (k, v) :: back))
      = executions.unmarshalExecution (.obj (front ++ back)) := by
  have hne : ∀ key ∈ executions.executionTags, foldKey k ≠ key :=
    fun key hkey h => hk (h ▸ hkey)
  simp only [executions.unmarshalExecution, structMembers,
    firstStringMismatch_insert_of_not_mem _ k v back hk,
    scanString_insert_of_ne "id" k v back (hne _ (by decide)),
    scanString_insert_of_ne "description" k v back (hne _ (by decide)),
    scanString_insert_of_ne "input" k v back (hne _ (by decide)),
    scanString_insert_of_ne "output" k v back (hne _ (by decide)),
    scanString_insert_of_ne "params" k v back (hne _ (by decide)),
    scanString_insert_of_ne "project_id" k v back (hne _ (by decide)),
    scanString_insert_of_ne "state" k v back (hne _ (by decide)),
    scanString_insert_of_ne "workflow_id" k v back (hne _ (by decide)),
    scanString_insert_of_ne "workflow_name" k v back (hne _ (by decide)),
    scanString_insert_of_ne "workflow_namespace" k v back (hne _ (by decide))]

/-- A workflow object decodes the same with and without a member that
`Workflow` has no field for. -/
theorem unmarshalWorkflow_insert (front back : List (String × JSON)) (k : String) (v : JSON)
    (hk : foldKey k ∉ workflows.workflowTags) :
    workflows.unmarshalWorkflow (.obj (front ++ (k, v) :: back))
      = workflows.unmarshalWorkflow (.obj (front ++ back)) := by
  have hne : ∀ key ∈ workflows.workflowTags, foldKey k ≠ key :=
    fun key hkey h => hk (h ▸ hkey)
  simp only [workflows.unmarshalWorkflow, structMembers,
    firstStringMismatch_insert_of_not_mem _ k v back hk,
    scanString_insert_of_ne "id" k v back (hne _ (by decide)),
    scanString_insert_of_ne "definition" k v back (hne _ (by decide)),
    scanString_insert_of_ne "name" k v back (hne _ (by decide)),
    scanString_insert_of_ne "namespace" k v back (hne _ (by decide)),
    scanString_insert_of_ne "input" k v back (hne _ (by decide)),
    scanString_insert_of_ne "project_id" k v back (hne _ (by decide)),
    scanString_insert_of_ne "scope" k v back (hne _ (by decide))]

/-- C11 as stated fails: the Get response carries `"created_at":
"not-a-date"`, yet `Extract` returns no error and the execution of
`TestGetExecution`, as if the body were valid. -/
theorem Extract_bad_timestamp_no_error :
    executions.commonResult.Extract { Body := executions.badTimestampBody, Err := none }
      = (executions.testExpected, none) ∧
    (executions.commonResult.Extract
      { Body := executions.badTimestampBody, Err := none }).2 = none := by
  refine ⟨by decide, by decide⟩

/-- C11, amended: `Execution` declares no timestamp field, so a `created_at` or
`updated_at` member of the Get response, whatever its value and wherever it
stands in the object, is ignored: `Extract` returns the same entity and the
same error as for the object without that member. -/
theorem Extract_ignores_timestamp_members (front back : List (String × JSON)) (v : JSON) :
    executions.commonResult.Extract
        { Body := .obj (front ++ ("created_at", v) :: back), Err := none }
      = executions.commonResult.Extract { Body := .obj (front ++ back), Err := none } ∧
    executions.commonResult.Extract
        { Body := .obj (front ++ ("updated_at", v) :: back), Err := none }
      = executions.commonResult.Extract { Body := .obj (front ++ back), Err := none } := by
  constructor
  · simp only [executions.commonResult.Extract]
    exact unmarshalExecution_insert front back "created_at" v (by decide)
  · simp only [executions.commonResult.Extract]
    exact unmarshalExecution_insert front back "updated_at" v (by decide)

/-- C12 as stated fails: "ID" is not among the wire names of `Execution`, and
the bare record of `TestGetExecution` decodes to the expected execution
without error; yet that record extended with the member "ID" decodes with an
error when the value is the number 5, and to another execution (ID "2") when
the value is the string "2", because the key matches the tag "id" once letter
case is ignored.  Likewise "Name" with a number for a workflow. -/
theorem Extract_case_variant_key_is_not_ignored :
    "ID" ∉ executions.executionTags ∧
    executions.commonResult.Extract
        { Body := .obj (executions.testGetMembers ++ []), Err := none }
      = (executions.testExpected, none) ∧
    executions.commonResult.Extract
        { Body := .obj (executions.testGetMembers ++ ("ID", JSON.num 5) :: []), Err := none }
      = (executions.testExpected, some (Error.decode "ID")) ∧
    executions.commonResult.Extract
        { Body := .obj (executions.testGetMembers ++ ("ID", JSON.str "2") :: []), Err := none }
      = ({ executions.testExpected with ID := "2" }, none) ∧
    "Name" ∉ workflows.workflowTags ∧
    workflows.commonResult.Extract
        { Body := .obj (workflows.testGetMembers ++ []), Err := none }
      = (workflows.testExpected, none) ∧
    workflows.commonResult.Extract
        { Body := .obj (workflows.testGetMembers ++ ("Name", JSON.num 1) :: []), Err := none }
      = (workflows.testExpected, some (Error.decode "Name")) := by
  refine ⟨by decide, by decide, by decide, by decide, by decide, by decide, by decide⟩

/-- C12, amended: let `o` be a JSON object (its members `front ++ back`) and
`k` a key with any value `v`, put anywhere among the members.  If `k` matches
no wire name of `Execution`, letter case ignored, and `o` decodes to `e`
without error, so does the extended object; likewise for `Workflow` and its
wire names. -/
theorem Extract_ignores_unknown_member (front back : List (String × JSON)) (k : String)
    (v : JSON) :
    (foldKey k ∉ executions.executionTags → ∀ e : executions.Execution,
      executions.commonResult.Extract { Body := .obj (front ++ back), Err := none }
        = (e, none) →
      executions.commonResult.Extract { Body := .obj (front ++ (k, v) :: back), Err := none }
        = (e, none)) ∧
    (foldKey k ∉ workflows.workflowTags → ∀ w : workflows.Workflow,
      workflows.commonResult.Extract { Body := .obj (front ++ back), Err := none }
        = (w, none) →
      workflows.commonResult.Extract { Body := .obj (front ++ (k, v) :: back), Err := none }
        = (w, none)) := by
  constructor
  · intro hk e he
    simp only [executions.commonResult.Extract] at he ⊢
    rw [unmarshalExecution_insert front back k v hk]
    exact he
  · intro hk w hw
    simp only [workflows.commonResult.Extract] at hw ⊢
    rw [unmarshalWorkflow_insert front back k v hk]
    exact hw

/-- Witness of the amended C12 on the bodies of `TestGetWorkflow` and
`TestGetExecution`: the object without its `updated_at` decodes to the expected
entity, and so does the object with `updated_at` put back. -/
theorem Extract_ignores_unknown_member_witness :
    foldKey "updated_at" ∉ workflows.workflowTags ∧
    workflows.commonResult.Extract
        { Body := .obj (workflows.testGetMembers ++ []), Err := none }
      = (workflows.testExpected, none) ∧
    workflows.commonResult.Extract
        { Body := .obj (workflows.testGetMembers ++
            ("updated_at", JSON.str "1970-01-01T00:00:00.000000") :: []), Err := none }
      = (workflows.testExpected, none) ∧
    executions.commonResult.Extract
        { Body := .obj (executions.testGetMembers ++
            ("Updated_At", JSON.num 0) :: []), Err := none }
      = (executions.testExpected, none) :=
  ⟨by decide, by decide,
   (Extract_ignores_unknown_member workflows.testGetMembers [] "updated_at"
      (JSON.str "1970-01-01T00:00:00.000000")).2 (by decide) workflows.testExpected
      (by decide),
   (Extract_ignores_unknown_member executions.testGetMembers [] "Updated_At"
      (JSON.num 0)).1 (by decide) executions.testExpected (by decide)⟩

/-! ### Polling -/

/-- The state after one more invocation is what `check` leaves behind. -/
theorem pollState_succ {σ : Type} (check : tools.Check σ) (n : Nat) :
    ∀ s, tools.pollState check s (n + 1) = (check (tools.pollState check s n)).1 := by
  induction n with
  | zero => intro s; rfl
  | succ n ih =>
    intro s
    show tools.pollState check (check s).1 (n + 1) = _
    rw [ih]
    rfl

/-- C13: let the results of the first `n` invocations of `check` be
`(false, nil)` and let the next one, number `n + 1`, be the first terminal
result: `done` or a non-nil error.  Then with fuel for `n + 1` invocations the
loop returns after exactly `n + 1` invocations of `check`, and what it returns
is the error part of that result: nil for `(true, nil)`, the very error when
there is one. -/
theorem WaitFor_stops_at_first_terminal {σ : Type} (check : tools.Check σ) (n : Nat) :
    ∀ (s : σ) (fuel : Nat),
      (∀ j, j < n → (check (tools.pollState check s j)).2 = (false, none)) →
      ((check (tools.pollState check s n)).2.1 = true ∨
        (check (tools.pollState check s n)).2.2 ≠ none) →
      n < fuel →
      tools.WaitFor check fuel s =
        some ((check (tools.pollState check s n)).2.2, n + 1,
          tools.pollState check s (n + 1)) := by
  induction n with
  | zero =>
    intro s fuel _ hterm hfuel
    obtain ⟨f, rfl⟩ : ∃ f, fuel = f + 1 := ⟨fuel - 1, by omega⟩
    simp only [tools.pollState] at hterm ⊢
    rcases hc : check s with ⟨s1, done, err⟩
    rw [hc] at hterm
    cases err with
    | some e => simp [tools.WaitFor, hc]
    | none =>
      cases done with
      | true => simp [tools.WaitFor, hc]
      | false => simp at hterm
  | succ n ih =>
    intro s fuel hbefore hterm hfuel
    obtain ⟨f, rfl⟩ : ∃ f, fuel = f + 1 := ⟨fuel - 1, by omega⟩
    have h0 := hbefore 0 (Nat.succ_pos n)
    simp only [tools.pollState] at h0
    rcases hc : check s with ⟨s1, done, err⟩
    rw [hc] at h0
    simp only [Prod.mk.injEq] at h0
    obtain ⟨hdone, herr⟩ := h0
    subst hdone herr
    have hs1 : (check s).1 = s1 := by rw [hc]
    have hrec := ih s1 f
      (fun j hj => by
        have := hbefore (j + 1) (Nat.succ_lt_succ hj)
        simpa [tools.pollState, hs1] using this)
      (by simpa [tools.pollState, hs1] using hterm)
      (by omega)
    simp only [tools.WaitFor, hc, hrec]
    simp [tools.pollState, hs1]

/-- Witness of C13, the two scenarios of the specification: the results
`(false, nil)`, `(false, nil)`, `(true, nil)` give success after exactly 3
invocations; a first result `(false, "ERROR state")` gives that error after
exactly 1 invocation. -/
theorem WaitFor_stops_at_first_terminal_witness :
    tools.WaitFor (tools.replay [(false, none), (false, none), (true, none)]) 3 0
      = some (none, 3, 3) ∧
    tools.WaitFor (tools.replay [(false, some (Error.custom "ERROR state"))]) 1 0
      = some (some (Error.custom "ERROR state"), 1, 1) :=
  ⟨WaitFor_stops_at_first_terminal
      (tools.replay [(false, none), (false, none), (true, none)]) 2 0 3
      (by decide) (by decide) (by decide),
   WaitFor_stops_at_first_terminal
      (tools.replay [(false, some (Error.custom "ERROR state"))]) 0 0 1
      (by decide) (by decide) (by decide)⟩

/-- When the loop returns without error, its last invocation of `check` was
the first to report `done`, all earlier ones reported `(false, nil)`, and the
state is the one that last invocation left. -/
theorem WaitFor_success_inv {σ : Type} (check : tools.Check σ) (fuel : Nat) :
    ∀ (s : σ) (n : Nat) (s2 : σ),
      tools.WaitFor check fuel s = some (none, n, s2) →
      ∃ m, n = m + 1 ∧
        (∀ j, j < m → (check (tools.pollState check s j)).2 = (false, none)) ∧
        (check (tools.pollState check s m)).2 = (true, none) ∧
        s2 = (check (tools.pollState check s m)).1 := by
  induction fuel with
  | zero => intro s n s2 h; simp [tools.WaitFor] at h
  | succ f ih =>
    intro s n s2 h
    rcases hc : check s with ⟨s1, done, err⟩
    cases err with
    | some e => simp [tools.WaitFor, hc] at h
    | none =>
      cases done with
      | true =>
        simp only [tools.WaitFor, hc, Option.some.injEq, Prod.mk.injEq, true_and] at h
        obtain ⟨hn, hs⟩ := h
        exact ⟨0, hn.symm, fun j hj => absurd hj (Nat.not_lt_zero j),
          by simp [tools.pollState, hc], by simp [tools.pollState, hc, hs]⟩
      | false =>
        simp only [tools.WaitFor, hc] at h
        rcases hw : tools.WaitFor check f s1 with _ | ⟨err1, n1, s3⟩
        · simp [hw] at h
        · rw [hw] at h
          simp only [Option.some.injEq, Prod.mk.injEq] at h
          obtain ⟨herr1, hn, hs⟩ := h
          subst herr1 hs
          obtain ⟨m, hm, hbefore, hlast, hstate⟩ := ih s1 n1 s3 hw
          have hs1 : (check s).1 = s1 := by rw [hc]
          refine ⟨m + 1, by omega, ?_, ?_, ?_⟩
          · intro j hj
            cases j with
            | zero => simp [tools.pollState, hc]
            | succ j =>
              have := hbefore j (by omega)
              simpa [tools.pollState, hs1] using this
          · simpa [tools.pollState, hs1] using hlast
          · simpa [tools.pollState, hs1] using hstate

/-- What the check of `CreateExecution` reports, in terms of the execution
that its Get read and the error of that Get. -/
theorem waitCheck_reports (clientAt : Nat → ServiceClient) (st : Nat × executions.Execution) :
    ((acceptance.waitCheck clientAt st).2.1 = true ↔
      (executions.commonResult.Extract (executions.Get (clientAt st.1) st.2.ID).1).2 = none ∧
      (executions.commonResult.Extract (executions.Get (clientAt st.1) st.2.ID).1).1.State
        = "SUCCESS") ∧
    ((acceptance.waitCheck clientAt st).2.2 ≠ none ↔
      (executions.commonResult.Extract (executions.Get (clientAt st.1) st.2.ID).1).2 ≠ none ∨
      (executions.commonResult.Extract (executions.Get (clientAt st.1) st.2.ID).1).1.State
        = "ERROR") := by
  rcases hx : executions.commonResult.Extract (executions.Get (clientAt st.1) st.2.ID).1
    with ⟨latest, err⟩
  cases err with
  | some e => simp [acceptance.waitCheck, hx]
  | none =>
    by_cases h1 : latest.State = "SUCCESS"
    · simp [acceptance.waitCheck, hx, h1]
    · by_cases h2 : latest.State = "ERROR"
      · simp [acceptance.waitCheck, hx, h1, h2]
      · simp [acceptance.waitCheck, hx, h1, h2]

/-- A check that reports `(false, nil)` leaves the captured execution as it
was and moves on to the next request. -/
theorem waitCheck_not_done (clientAt : Nat → ServiceClient) (st : Nat × executions.Execution)
    (h : (acceptance.waitCheck clientAt st).2 = (false, none)) :
    (acceptance.waitCheck clientAt st).1 = (st.1 + 1, st.2) := by
  rcases hx : executions.commonResult.Extract (executions.Get (clientAt st.1) st.2.ID).1
    with ⟨latest, err⟩
  cases err with
  | some e => simp [acceptance.waitCheck, hx]
  | none =>
    by_cases h1 : latest.State = "SUCCESS"
    · simp [acceptance.waitCheck, hx, h1] at h
    · by_cases h2 : latest.State = "ERROR"
      · simp [acceptance.waitCheck, hx, h1, h2]
      · simp [acceptance.waitCheck, hx, h1, h2]

/-- A check that reports done has read, without error, an execution in state
"SUCCESS" and has stored it in the captured variable. -/
theorem waitCheck_done (clientAt : Nat → ServiceClient) (st : Nat × executions.Execution)
    (h : (acceptance.waitCheck clientAt st).2 = (true, none)) :
    executions.commonResult.Extract (executions.Get (clientAt st.1) st.2.ID).1
      = ((acceptance.waitCheck clientAt st).1.2, none) ∧
    (acceptance.waitCheck clientAt st).1.2.State = "SUCCESS" ∧
    (acceptance.waitCheck clientAt st).1.1 = st.1 + 1 := by
  rcases hx : executions.commonResult.Extract (executions.Get (clientAt st.1) st.2.ID).1
    with ⟨latest, err⟩
  cases err with
  | some e => simp [acceptance.waitCheck, hx] at h
  | none =>
    by_cases h1 : latest.State = "SUCCESS"
    · simp [acceptance.waitCheck, hx, h1]
    · by_cases h2 : latest.State = "ERROR"
      · simp [acceptance.waitCheck, hx, h1, h2] at h
      · simp [acceptance.waitCheck, hx, h1, h2] at h

/-- While the check reports `(false, nil)`, the wait keeps the execution it
started with and counts the requests. -/
theorem pollState_waitCheck (clientAt : Nat → ServiceClient) (i : Nat)
    (ex : executions.Execution) (m : Nat) :
    (∀ j, j < m →
      (acceptance.waitCheck clientAt
        (tools.pollState (acceptance.waitCheck clientAt) (i, ex) j)).2 = (false, none)) →
    tools.pollState (acceptance.waitCheck clientAt) (i, ex) m = (i + m, ex) := by
  induction m with
  | zero => intro _; rfl
  | succ m ih =>
    intro h
    have hm := ih (fun j hj => h j (Nat.lt_succ_of_lt hj))
    have hlast := h m (Nat.lt_succ_self m)
    rw [pollState_succ, waitCheck_not_done clientAt _ hlast, hm]
    rfl

/-- C17: when `CreateExecution` returns the execution `e` with a nil error
(which it does only after its wait has returned without error), `e` is in
state "SUCCESS" and is the execution read, without error, by the last Get of
the wait: the wait made `n ≥ 1` Gets, all by the id of the created execution,
and `e` is what request `n` returned.  Besides, the wait's check reports done
exactly when its Get returned without error an execution in state "SUCCESS",
and reports an error exactly when that Get failed or the execution read is in
state "ERROR". -/
theorem CreateExecution_returns_last_read_success (clientAt : Nat → ServiceClient)
    (workflow : workflows.Workflow) (executionDescription : String) (fuel : Nat)
    (e : executions.Execution)
    (h : acceptance.CreateExecution clientAt workflow executionDescription fuel
      = some (.returned e none)) :
    e.State = "SUCCESS" ∧
    (∃ (created : executions.Execution) (n : Nat),
      executions.commonResult.Extract
          (executions.Create (clientAt 0)
            { WorkflowID := workflow.ID, WorkflowNamespace := workflow.Namespace,
              Description := executionDescription, Input := "{}", Params := "{}" }).1
        = (created, none) ∧
      tools.WaitFor (acceptance.waitCheck clientAt) fuel (1, created)
        = some (none, n, (n + 1, e)) ∧
      1 ≤ n ∧
      executions.commonResult.Extract (executions.Get (clientAt n) created.ID).1
        = (e, none)) ∧
    (∀ st : Nat × executions.Execution,
      ((acceptance.waitCheck clientAt st).2.1 = true ↔
        (executions.commonResult.Extract (executions.Get (clientAt st.1) st.2.ID).1).2 = none ∧
        (executions.commonResult.Extract (executions.Get (clientAt st.1) st.2.ID).1).1.State
          = "SUCCESS") ∧
      ((acceptance.waitCheck clientAt st).2.2 ≠ none ↔
        (executions.commonResult.Extract (executions.Get (clientAt st.1) st.2.ID).1).2 ≠ none ∨
        (executions.commonResult.Extract (executions.Get (clientAt st.1) st.2.ID).1).1.State
          = "ERROR")) := by
  have key : e.State = "SUCCESS" ∧
      ∃ (created : executions.Execution) (n : Nat),
        executions.commonResult.Extract
            (executions.Create (clientAt 0)
              { WorkflowID := workflow.ID, WorkflowNamespace := workflow.Namespace,
                Description := executionDescription, Input := "{}", Params := "{}" }).1
          = (created, none) ∧
        tools.WaitFor (acceptance.waitCheck clientAt) fuel (1, created)
          = some (none, n, (n + 1, e)) ∧
        1 ≤ n ∧
        executions.commonResult.Extract (executions.Get (clientAt n) created.ID).1
          = (e, none) := by
    unfold acceptance.CreateExecution at h
    rcases hcr : executions.commonResult.Extract
        (executions.Create (clientAt 0)
          { WorkflowID := workflow.ID, WorkflowNamespace := workflow.Namespace,
            Description := executionDescription, Input := "{}", Params := "{}" }).1
      with ⟨created, cerr⟩
    rw [hcr] at h
    cases cerr with
    | some err => simp at h
    | none =>
      simp only at h
      by_cases hd : created.Description = executionDescription
      · rw [if_pos hd] at h
        rcases hw : tools.WaitFor (acceptance.waitCheck clientAt) fuel (1, created)
          with _ | ⟨werr, n, st⟩
        · rw [hw] at h; simp at h
        · rw [hw] at h
          cases werr with
          | some err => simp at h
          | none =>
            simp only [Option.some.injEq, acceptance.Outcome.returned.injEq, and_true] at h
            obtain ⟨m, hn, hbefore, hlast, hstate⟩ :=
              WaitFor_success_inv (acceptance.waitCheck clientAt) fuel (1, created) n st hw
            have hps := pollState_waitCheck clientAt 1 created m hbefore
            rw [hps] at hlast hstate
            obtain ⟨hread, hsucc, hidx⟩ := waitCheck_done clientAt (1 + m, created) hlast
            rw [← hstate] at hread hsucc hidx
            rw [h] at hread hsucc
            have hst : st = (n + 1, e) := by
              apply Prod.ext
              · simp only at hidx ⊢; omega
              · exact h
            refine ⟨hsucc, created, n, rfl, by rw [hw, hst], by omega, ?_⟩
            have hnm : n = 1 + m := by omega
            rw [hnm]
            exact hread
      · rw [if_neg hd] at h; simp at h
  exact ⟨key.1, key.2, fun st => waitCheck_reports clientAt st⟩

/-- Witness of C17: the created execution is running for the first two Gets
of the wait and in state "SUCCESS" from the third on; the helper returns the
execution read by that third Get. -/
theorem CreateExecution_returns_last_read_success_witness :
    acceptance.CreateExecution (acceptance.testClientAt "execution_abcde")
        workflows.testExpected "execution_abcde" 5
      = some (.returned
          { ID := "e1", Description := "execution_abcde", Input := "{}", Output := "",
            Params := "{}", ProjectID := "p1", State := "SUCCESS", WorkflowID := "w1",
            WorkflowName := "flow", WorkflowNamespace := "" } none) ∧
    (({ ID := "e1", Description := "execution_abcde", Input := "{}", Output := "",
        Params := "{}", ProjectID := "p1", State := "SUCCESS", WorkflowID := "w1",
        WorkflowName := "flow", WorkflowNamespace := "" } : executions.Execution).State
      = "SUCCESS") :=
  ⟨rfl,
   (CreateExecution_returns_last_read_success (acceptance.testClientAt "execution_abcde")
      workflows.testExpected "execution_abcde" 5
      { ID := "e1", Description := "execution_abcde", Input := "{}", Output := "",
        Params := "{}", ProjectID := "p1", State := "SUCCESS", WorkflowID := "w1",
        WorkflowName := "flow", WorkflowNamespace := "" } rfl).1⟩

/-! ### Create, Get and Delete against the transport -/

/-- The options of a cron trigger always encode: no field is required. -/
theorem ToCronTriggerCreateMap_ok (opts : crontriggers.CreateOpts) :
    opts.ToCronTriggerCreateMap = .ok [("execution", .obj (marshalFields opts.fields))] := by
  simp [crontriggers.CreateOpts.ToCronTriggerCreateMap, BuildRequestBody,
    crontriggers.CreateOpts.fields, validateRequired]

/-- The options of an execution encode when `WorkflowID` is not empty. -/
theorem ToExecutionCreateMap_ok (opts : executions.CreateOpts) (h : opts.WorkflowID ≠ "") :
    opts.ToExecutionCreateMap = .ok [("execution", .obj (marshalFields opts.fields))] := by
  simp [executions.CreateOpts.ToExecutionCreateMap, BuildRequestBody,
    executions.CreateOpts.fields, validateRequired, FieldValue.isZero, h]

/-- C14: when the server answers the POST with status `s` (and any body), the
result of `executions.Create` (for options that encode) and the result of
`crontriggers.Create` carry no error exactly when `s` is 200 or 201; for every
other status they carry the request error of that status. -/
theorem Create_succeeds_exactly_on_200_201 (client : ServiceClient)
    (eo : executions.CreateOpts) (co : crontriggers.CreateOpts) (s : Nat) (b : JSON)
    (hwf : eo.WorkflowID ≠ "")
    (hresp : ∀ req, client.transport req = .ok { status := s, body := b }) :
    ((executions.Create client eo).1.Err = none ↔ s = 200 ∨ s = 201) ∧
    ((crontriggers.Create client co).1.Err = none ↔ s = 200 ∨ s = 201) ∧
    (executions.Create client eo).1.Err
      = (if s = 200 ∨ s = 201 then none else some (Error.request s)) ∧
    (crontriggers.Create client co).1.Err
      = (if s = 200 ∨ s = 201 then none else some (Error.request s)) := by
  have he : (executions.Create client eo).1.Err
      = (if s = 200 ∨ s = 201 then none else some (Error.request s)) := by
    simp only [executions.Create, ToExecutionCreateMap_ok eo hwf, ServiceClient.Post,
      ServiceClient.Request, hresp]
    by_cases h : s = 200 ∨ s = 201
    · simp [h]
    · simp [h]
  have hc : (crontriggers.Create client co).1.Err
      = (if s = 200 ∨ s = 201 then none else some (Error.request s)) := by
    simp only [crontriggers.Create, ToCronTriggerCreateMap_ok co, ServiceClient.Post,
      ServiceClient.Request, hresp]
    by_cases h : s = 200 ∨ s = 201
    · simp [h]
    · simp [h]
  refine ⟨?_, ?_, he, hc⟩
  · rw [he]; by_cases h : s = 200 ∨ s = 201 <;> simp [h]
  · rw [hc]; by_cases h : s = 200 ∨ s = 201 <;> simp [h]

/-- Witness of C14 on the servers of `TestCreateExecution` and
`TestCreateCronTrigger`, which answer with status 200. -/
theorem Create_succeeds_exactly_on_200_201_witness :
    (executions.Create executions.testCreateClient executions.testCreateOpts).1.Err = none ∧
    (crontriggers.Create executions.testCreateClient crontriggers.testCreateOpts).1.Err
      = none :=
  ⟨(Create_succeeds_exactly_on_200_201 executions.testCreateClient
      executions.testCreateOpts crontriggers.testCreateOpts 200 executions.testGetBody
      (by decide) (fun _ => rfl)).1.2 (Or.inl rfl),
   (Create_succeeds_exactly_on_200_201 executions.testCreateClient
      executions.testCreateOpts crontriggers.testCreateOpts 200 executions.testGetBody
      (by decide) (fun _ => rfl)).2.1.2 (Or.inl rfl)⟩

/-- C15: against a server that answers every DELETE request with status 202
and no body, `Delete` of an execution, of a cron trigger and of a workflow
return, for every id, a result whose `Err` is nil. -/
theorem Delete_accepted_has_no_error (client : ServiceClient) (id : String)
    (hresp : ∀ req, req.method = Method.DELETE →
      client.transport req = .ok { status := 202, body := .null }) :
    (executions.Delete client id).1.Err = none ∧
    (crontriggers.Delete client id).1.Err = none ∧
    (workflows.Delete client id).1.Err = none := by
  refine ⟨?_, ?_, ?_⟩
  · simp [executions.Delete, ServiceClient.Delete, ServiceClient.Request, hresp]
  · simp [crontriggers.Delete, ServiceClient.Delete, ServiceClient.Request, hresp]
  · simp [workflows.Delete, ServiceClient.Delete, ServiceClient.Request, hresp]

/-- Witness of C15, the server of the three Delete tests, for the id "1". -/
theorem Delete_accepted_has_no_error_witness :
    (executions.Delete
      { Endpoint := "http://127.0.0.1/"
        transport := fun _ => .ok { status := 202, body := .null } } "1").1.Err = none ∧
    (crontriggers.Delete
      { Endpoint := "http://127.0.0.1/"
        transport := fun _ => .ok { status := 202, body := .null } } "1").1.Err = none ∧
    (workflows.Delete
      { Endpoint := "http://127.0.0.1/"
        transport := fun _ => .ok { status := 202, body := .null } } "1").1.Err = none :=
  Delete_accepted_has_no_error
    { Endpoint := "http://127.0.0.1/"
      transport := fun _ => .ok { status := 202, body := .null } } "1" (fun _ _ => rfl)

/-- C16: whatever the transport answers, `executions.Create` with options that
encode hands it exactly one request, a POST of the encoded body to the create
URL; `executions.Get` exactly one, a GET of the URL of the id;
`executions.Delete` exactly one, a DELETE of the URL of the id. -/
theorem executions_calls_issue_one_request (client : ServiceClient)
    (opts : executions.CreateOpts) (id : String) (hwf : opts.WorkflowID ≠ "") :
    (∃ b : JSONMap, opts.ToExecutionCreateMap = .ok b ∧
      (executions.Create client opts).2
        = [{ method := .POST, url := executions.createURL client, body := some (.obj b) }]) ∧
    (executions.Get client id).2
      = [{ method := .GET, url := executions.getURL client id, body := none }] ∧
    (executions.Delete client id).2
      = [{ method := .DELETE, url := executions.deleteURL client id, body := none }] ∧
    (executions.Create client opts).2.length = 1 ∧
    (executions.Get client id).2.length = 1 ∧
    (executions.Delete client id).2.length = 1 := by
  have hreq : ∀ (req : HTTPRequest) (ok : List Nat), (client.Request req ok).2 = [req] := by
    intro req ok
    unfold ServiceClient.Request
    split
    · rfl
    · split <;> rfl
  have hc : (executions.Create client opts).2
      = [{ method := .POST, url := executions.createURL client,
           body := some (.obj [("execution", .obj (marshalFields opts.fields))]) }] := by
    simp only [executions.Create, ToExecutionCreateMap_ok opts hwf, ServiceClient.Post, hreq]
  have hg : (executions.Get client id).2
      = [{ method := .GET, url := executions.getURL client id, body := none }] := by
    simp only [executions.Get, ServiceClient.Get, hreq]
  have hd : (executions.Delete client id).2
      = [{ method := .DELETE, url := executions.deleteURL client id, body := none }] := by
    simp only [executions.Delete, ServiceClient.Delete, hreq]
  refine ⟨⟨_, ToExecutionCreateMap_ok opts hwf, hc⟩, hg, hd, ?_, ?_, ?_⟩
  · rw [hc]; rfl
  · rw [hg]; rfl
  · rw [hd]; rfl

/-- Witness of C16 on the options and the server of `TestCreateExecution`. -/
theorem executions_calls_issue_one_request_witness :
    executions.testCreateOpts.WorkflowID ≠ "" ∧
    (executions.Create executions.testCreateClient executions.testCreateOpts).2.length = 1 ∧
    (executions.Get executions.testCreateClient "1").2.length = 1 ∧
    (executions.Delete executions.testCreateClient "1").2.length = 1 :=
  ⟨by decide,
   (executions_calls_issue_one_request executions.testCreateClient
      executions.testCreateOpts "1" (by decide)).2.2.2⟩

/-! ### Cron trigger bodies -/

/-- C18: `ToCronTriggerCreateMap` returns a body for every `CreateOpts`; in
the object under its envelope key, "name", "pattern" and "workflow_id" are
always bound, to the fields as they are (the empty string included), while
"remaining_executions", "workflow_input" and "workflow_params" are bound
exactly when the field is non-zero.  With the options of
`TestCreateCronTrigger`, which leave `Pattern` empty, the body holds
"pattern" with the empty string and the creation succeeds. -/
theorem ToCronTriggerCreateMap_never_fails (opts : crontriggers.CreateOpts) :
    (∃ inner : JSONMap,
      opts.ToCronTriggerCreateMap = .ok [("execution", .obj inner)] ∧
      inner.get? "name" = some (.str opts.Name) ∧
      inner.get? "pattern" = some (.str opts.Pattern) ∧
      inner.get? "workflow_id" = some (.str opts.WorkflowID) ∧
      inner.get? "remaining_executions" =
        (if opts.RemainingExecutions = 0 then none
         else some (.num opts.RemainingExecutions)) ∧
      inner.get? "workflow_input" =
        (if opts.WorkflowInput = "" then none else some (.str opts.WorkflowInput)) ∧
      inner.get? "workflow_params" =
        (if opts.WorkflowParams = "" then none else some (.str opts.WorkflowParams))) ∧
    crontriggers.testCreateOpts.ToCronTriggerCreateMap =
      .ok [("execution", .obj [("name", .str "trigger"), ("pattern", .str ""),
        ("workflow_input", .str "{}"), ("workflow_id", .str "w1"),
        ("workflow_params", .str "{}")])] ∧
    (crontriggers.Create crontriggers.testCreateClient crontriggers.testCreateOpts).1.Err
      = none := by
  refine ⟨⟨marshalFields opts.fields, ToCronTriggerCreateMap_ok opts, ?_, ?_, ?_, ?_, ?_, ?_⟩,
    rfl, rfl⟩
  all_goals
    by_cases h1 : opts.RemainingExecutions = 0 <;> by_cases h2 : opts.WorkflowInput = "" <;>
    by_cases h3 : opts.WorkflowParams = "" <;>
    simp [crontriggers.CreateOpts.fields, marshalFields, FieldValue.isZero,
      FieldValue.toJSON, JSONMap.get?, h1, h2, h3]

/-- C19: for every cron trigger `CreateOpts` the body built by
`ToCronTriggerCreateMap` has exactly one top-level key, "execution", which is
the key `ToExecutionCreateMap` wraps its body in whenever it returns one; so
the top level binds neither "name", "pattern" nor "workflow_id", nor any key
other than "execution", such as "cron_trigger". -/
theorem ToCronTriggerCreateMap_envelope_is_execution (co : crontriggers.CreateOpts)
    (eo : executions.CreateOpts) :
    (∃ (top inner : JSONMap),
      co.ToCronTriggerCreateMap = .ok top ∧
      top = [("execution", .obj inner)] ∧
      top.map Prod.fst = ["execution"] ∧
      top.get? "name" = none ∧ top.get? "pattern" = none ∧
      top.get? "workflow_id" = none ∧ top.get? "cron_trigger" = none ∧
      ∀ k, k ≠ "execution" → top.get? k = none) ∧
    co.ToCronTriggerCreateMap = BuildRequestBody co.fields "execution" ∧
    eo.ToExecutionCreateMap = BuildRequestBody eo.fields "execution" ∧
    (eo.ToExecutionCreateMap = .error (Error.missingInput "WorkflowID") ∨
      ∃ einner : JSONMap, eo.ToExecutionCreateMap = .ok [("execution", .obj einner)]) := by
  refine ⟨⟨_, marshalFields co.fields, ToCronTriggerCreateMap_ok co, rfl, rfl,
    by simp [JSONMap.get?], by simp [JSONMap.get?], by simp [JSONMap.get?],
    by simp [JSONMap.get?], ?_⟩, rfl, rfl, ?_⟩
  · intro k hk
    simp [JSONMap.get?, Ne.symm hk]
  · by_cases h : eo.WorkflowID = ""
    · left
      simp [executions.CreateOpts.ToExecutionCreateMap, BuildRequestBody,
        executions.CreateOpts.fields, validateRequired, FieldValue.isZero, h]
    · right
      exact ⟨_, ToExecutionCreateMap_ok eo h⟩

end Gophercloud
